import Mathlib

/-!
# Pull-request handler of bulldozer (`server/handler/base.go`)

A shallow embedding of `Base.ProcessPullRequest`, `Base.UpdatePullRequest` and
`addUniqueComment`.  The handler is glue code around collaborators that live in
other packages (`bulldozer`, `pull`, `githubapp`, `go-github`, `strings`,
`pkg/errors`, `zerolog`).  Every collaborator is a field of a record, so the
theorems quantify over all of their possible results; every call that reaches a
collaborator is recorded, in program order, in the list `Run.calls`.
-/

namespace Bulldozer

/-! ## Data model -/

/-- A Go `error` value different from nil, as far as the handler can observe it:
its dynamic type (`*bulldozer.ErrComment` or anything else), the text returned
by `Error()`, and the wrapping done by `errors.Wrap` of `pkg/errors`. -/
inductive GoError where
  | errComment (text : String)
  | other (text : String)
  | wrap (cause : GoError) (message : String)
  deriving DecidableEq, Repr

/-- The method `Error()`; for a value built by `errors.Wrap(cause, message)` it
is `message + ": " + cause.Error()`. -/
def GoError.Error : GoError → String
  | .errComment text => text
  | .other text => text
  | .wrap cause message => message ++ ": " ++ cause.Error

/-- The type assertion `err.(*bulldozer.ErrComment)`: it looks at the dynamic
type of the value itself, not at a wrapped cause. -/
def GoError.isErrComment : GoError → Bool
  | .errComment _ => true
  | .other _ => false
  | .wrap _ _ => false

/-- A `*github.Client` handle. -/
structure Client where
  id : Nat
  deriving DecidableEq, Repr

/-- A `*github.PullRequest` handle. -/
structure PullRequest where
  id : Nat
  deriving DecidableEq, Repr

/-- The settings type `bulldozer.MergeConfig`; the handler only passes it on. -/
structure MergeConfig where
  tag : Nat
  deriving DecidableEq, Repr

/-- The settings type `bulldozer.UpdateConfig`; the handler only passes it on. -/
structure UpdateConfig where
  tag : Nat
  deriving DecidableEq, Repr

/-- The payload `bulldozer.Config` with the two fields the handler reads. -/
structure Config where
  Merge : MergeConfig
  Update : UpdateConfig
  deriving DecidableEq, Repr

/-- Modelled from the spec: the type `bulldozer.FetchedConfig` with its methods
`Missing()` and `Invalid()` is declared outside this file.  The spec describes
it as a tri-state value `Absent`, `Invalid`, `Valid(payload)` of which exactly
one state holds and only `Valid` carries settings. -/
inductive FetchedConfig where
  | absent
  | invalid
  | valid (config : Config)
  deriving DecidableEq, Repr

/-- The merge executors the handler builds: `bulldozer.NewGitHubMerger(client)`
and `bulldozer.NewPushRestrictionMerger(normal, restricted)`. -/
inductive Merger where
  | gitHub (client : Client)
  | pushRestriction (normal : Merger) (restricted : Merger)
  deriving DecidableEq, Repr

/-- Constructor `bulldozer.NewGitHubMerger`. -/
def NewGitHubMerger (client : Client) : Merger := .gitHub client

/-- Constructor `bulldozer.NewPushRestrictionMerger`. -/
def NewPushRestrictionMerger (normal restricted : Merger) : Merger :=
  .pushRestriction normal restricted

/-- The result of a call that returns `(value, error)`. -/
inductive Result (α : Type) where
  | ok (value : α)
  | fail (err : GoError)
  deriving DecidableEq, Repr

/-- The part of `pull.Context` the handler uses: the identity of the pull
request and what `Comments(ctx)` returns. -/
structure PullContext where
  Owner : String
  Repo : String
  Number : Int
  Comments : Result (List String)
  deriving DecidableEq, Repr

/-- The receiver `Base`: the embedded `githubapp.ClientCreator` (of which
`NewTokenClient` is used), the embedded `bulldozer.ConfigFetcher`
(`ConfigForPR`) and the two string fields. -/
structure Base where
  NewTokenClient : String → Result Client
  ConfigForPR : Client → PullRequest → Result FetchedConfig
  AppName : String
  PushRestrictionUserToken : String

/-- The functions the handler calls in other packages: the condition evaluators
and the merge action of package `bulldozer`, `client.Issues.CreateComment` of
`go-github`, and `strings.EqualFold`.  `MergePR` and `CreateComment` return
`none` for a nil error.  The result of `bulldozer.UpdatePR` is discarded by the
handler, so it needs no field. -/
structure Externals where
  ShouldMergePR : PullContext → MergeConfig → Result Bool
  MergePR : PullContext → Merger → MergeConfig → Option GoError
  ShouldUpdatePR : PullContext → UpdateConfig → Result Bool
  CreateComment : Client → String → String → Int → String → Option GoError
  EqualFold : String → String → Bool

/-- Levels of the `zerolog` logger used by the handler. -/
inductive Level where
  | debug
  | warn
  | error
  deriving DecidableEq, Repr

/-- One call that leaves the handler, with the arguments it is given. -/
inductive Call where
  | ConfigForPR (client : Client) (pr : PullRequest)
  | NewTokenClient (token : String)
  | ShouldMergePR (pullCtx : PullContext) (settings : MergeConfig)
  | MergePR (pullCtx : PullContext) (merger : Merger) (settings : MergeConfig)
  | ShouldUpdatePR (pullCtx : PullContext) (settings : UpdateConfig)
  | UpdatePR (pullCtx : PullContext) (client : Client) (settings : UpdateConfig)
      (baseRef : String)
  | Comments (pullCtx : PullContext)
  | CreateComment (client : Client) (owner : String) (repo : String) (number : Int)
      (body : String)
  | Log (level : Level) (err : Option GoError) (msg : String)
  deriving DecidableEq, Repr

/-- What one run of a handler function does: the calls it makes, in order, and
the error it returns (`none` is nil). -/
structure Run where
  calls : List Call
  err : Option GoError
  deriving DecidableEq, Repr

/-! ## The three functions of `base.go` -/

/-- The loop of `addUniqueComment`: `shouldComment` starts as `true` and is set
to `false` at every comment that `strings.EqualFold` matches. -/
def shouldCommentLoop (x : Externals) (comments : List String) (errorComment : String) : Bool :=
  comments.foldl
    (fun shouldComment comment =>
      if x.EqualFold comment errorComment then false else shouldComment)
    true

/-- Function `addUniqueComment` (base.go, lines 112 to 136). -/
def addUniqueComment (x : Externals) (pullCtx : PullContext) (client : Client)
    (errorComment : String) : Run :=
  match pullCtx.Comments with
  | .fail err =>
    ⟨[.Comments pullCtx], some (.wrap err "failed to listed pull request comments")⟩
  | .ok comments =>
    let shouldComment := shouldCommentLoop x comments errorComment
    if shouldComment then
      match x.CreateComment client pullCtx.Owner pullCtx.Repo pullCtx.Number errorComment with
      | some err =>
        ⟨[.Comments pullCtx,
          .CreateComment client pullCtx.Owner pullCtx.Repo pullCtx.Number errorComment],
         some (.wrap err "unable to post failure comment")⟩
      | none =>
        ⟨[.Comments pullCtx,
          .CreateComment client pullCtx.Owner pullCtx.Repo pullCtx.Number errorComment],
         none⟩
    else
      ⟨[.Comments pullCtx], none⟩

/-- Method `Base.ProcessPullRequest` (base.go, lines 38 to 81). -/
def ProcessPullRequest (b : Base) (x : Externals) (pullCtx : PullContext) (client : Client)
    (pr : PullRequest) : Run :=
  match b.ConfigForPR client pr with
  | .fail err =>
    ⟨[.ConfigForPR client pr], some (.wrap err "failed to fetch configuration")⟩
  | .ok bulldozerConfig =>
    let merger := NewGitHubMerger client
    let built : Result (Merger × List Call) :=
      if b.PushRestrictionUserToken ≠ "" then
        match b.NewTokenClient b.PushRestrictionUserToken with
        | .fail err => .fail err
        | .ok tokenClient =>
          .ok (NewPushRestrictionMerger merger (NewGitHubMerger tokenClient),
               [.ConfigForPR client pr, .NewTokenClient b.PushRestrictionUserToken])
      else
        .ok (merger, [.ConfigForPR client pr])
    match built with
    | .fail err =>
      ⟨[.ConfigForPR client pr, .NewTokenClient b.PushRestrictionUserToken],
       some (.wrap err "failed to create token client")⟩
    | .ok (merger, trace) =>
      match bulldozerConfig with
      | .absent =>
        ⟨trace ++ [.Log .debug none "No configuration found for %s"], none⟩
      | .invalid =>
        ⟨trace ++ [.Log .warn none "Configuration is invalid for %s"], none⟩
      | .valid config =>
        let trace := trace ++ [.Log .debug none "Found valid configuration for %s",
                               .ShouldMergePR pullCtx config.Merge]
        match x.ShouldMergePR pullCtx config.Merge with
        | .fail err =>
          ⟨trace, some (.wrap err "unable to determine merge status")⟩
        | .ok shouldMerge =>
          if shouldMerge then
            let trace := trace ++ [.MergePR pullCtx merger config.Merge]
            match x.MergePR pullCtx merger config.Merge with
            | some err =>
              let trace := trace ++ [.Log .error (some err) "failed to merge pull request"]
              if err.isErrComment then
                let posted := addUniqueComment x pullCtx client err.Error
                match posted.err with
                | some err =>
                  ⟨trace ++ posted.calls ++
                     [.Log .error (some err) "fail to post unique comment"], none⟩
                | none => ⟨trace ++ posted.calls, none⟩
              else
                ⟨trace, none⟩
            | none => ⟨trace, none⟩
          else
            ⟨trace, none⟩

/-- Method `Base.UpdatePullRequest` (base.go, lines 83 to 110). -/
def UpdatePullRequest (b : Base) (x : Externals) (pullCtx : PullContext) (client : Client)
    (pr : PullRequest) (baseRef : String) : Run :=
  match b.ConfigForPR client pr with
  | .fail err =>
    ⟨[.ConfigForPR client pr], some (.wrap err "failed to fetch configuration")⟩
  | .ok bulldozerConfig =>
    let trace : List Call := [.ConfigForPR client pr]
    match bulldozerConfig with
    | .absent =>
      ⟨trace ++ [.Log .debug none "No configuration found for %s"], none⟩
    | .invalid =>
      ⟨trace ++ [.Log .warn none "Configuration is invalid for %s"], none⟩
    | .valid config =>
      let trace := trace ++ [.Log .debug none "Found valid configuration for %s",
                             .ShouldUpdatePR pullCtx config.Update]
      match x.ShouldUpdatePR pullCtx config.Update with
      | .fail err =>
        ⟨trace, some (.wrap err "unable to determine update status")⟩
      | .ok shouldUpdate =>
        if shouldUpdate then
          ⟨trace ++ [.UpdatePR pullCtx client config.Update baseRef], none⟩
        else
          ⟨trace, none⟩

/-! ## Observations on runs -/

/-- The call is `bulldozer.MergePR`. -/
def Call.isMergePR : Call → Bool
  | .MergePR _ _ _ => true
  | _ => false

/-- The call is `bulldozer.UpdatePR`. -/
def Call.isUpdatePR : Call → Bool
  | .UpdatePR _ _ _ _ => true
  | _ => false

/-- The call is one of the condition evaluators `bulldozer.ShouldMergePR` and
`bulldozer.ShouldUpdatePR`. -/
def Call.isEvaluator : Call → Bool
  | .ShouldMergePR _ _ => true
  | .ShouldUpdatePR _ _ => true
  | _ => false

/-- The call is `b.NewTokenClient`. -/
def Call.isNewTokenClient : Call → Bool
  | .NewTokenClient _ => true
  | _ => false

/-- The call lists the comments of the pull request. -/
def Call.isComments : Call → Bool
  | .Comments _ => true
  | _ => false

/-- The call is `client.Issues.CreateComment`. -/
def Call.isCreateComment : Call → Bool
  | .CreateComment _ _ _ _ _ => true
  | _ => false

/-- The call touches the comments of the pull request (listing or creating). -/
def Call.isCommentCall (c : Call) : Bool := c.isComments || c.isCreateComment

/-! ## Sample collaborators, used to instantiate the theorems -/

/-- Case folding restricted to ASCII letters; `strings.EqualFold` agrees with it
on ASCII text. -/
def asciiEqualFold (s t : String) : Bool :=
  s.data.map Char.toLower == t.data.map Char.toLower

/-- Collaborators for which the evaluators say yes, the merge fails with a
commentable error and posting succeeds. -/
def sampleExternals : Externals where
  ShouldMergePR := fun _ _ => .ok true
  MergePR := fun _ _ _ => some (.errComment "Merge blocked")
  ShouldUpdatePR := fun _ _ => .ok true
  CreateComment := fun _ _ _ _ _ => none
  EqualFold := asciiEqualFold

/-- A pull request with the given comment history. -/
def samplePull (history : List String) : PullContext :=
  ⟨"palantir", "bulldozer", 7, .ok history⟩

/-- A handler whose configuration fetch returns `fetched` and whose token client
creation succeeds. -/
def sampleBase (fetched : FetchedConfig) (token : String) : Base where
  NewTokenClient := fun _ => .ok ⟨2⟩
  ConfigForPR := fun _ _ => .ok fetched
  AppName := "bulldozer"
  PushRestrictionUserToken := token

/-- A handler whose configuration fetch returns `fetched` and whose token client
creation fails. -/
def brokenTokenBase (fetched : FetchedConfig) (token : String) : Base where
  NewTokenClient := fun _ => .fail (.other "bad credentials")
  ConfigForPR := fun _ _ => .ok fetched
  AppName := "bulldozer"
  PushRestrictionUserToken := token

/-- A valid configuration. -/
def sampleConfig : Config := ⟨⟨1⟩, ⟨2⟩⟩

/-- The text `s` starts with the text `p`. -/
def startsWith (p s : String) : Bool := p.data.isPrefixOf s.data

/-- The bodies of the `CreateComment` calls of a run, in order. -/
def createdBodies : List Call → List String
  | [] => []
  | .CreateComment _ _ _ _ body :: rest => body :: createdBodies rest
  | _ :: rest => createdBodies rest

/-- One delivery of an error text against the comment store of the code-hosting
service, which is an ordered, append-only sequence of text bodies that the
handler only reads and appends to: `addUniqueComment` runs on a pull request
whose `Comments` returns the current history; a `CreateComment` that succeeds
appends its body, anything else leaves the history as it is. -/
def deliver (x : Externals) (pullCtx : PullContext) (client : Client)
    (history : List String) (errorComment : String) : List String × Run :=
  let run := addUniqueComment x { pullCtx with Comments := .ok history } client errorComment
  (if run.err = none then history ++ createdBodies run.calls else history, run)

/-- Sequential deliveries of several error texts against the same store; the
result is the final history and the runs in order. -/
def deliverAll (x : Externals) (pullCtx : PullContext) (client : Client) :
    List String → List String → List String × List Run
  | history, [] => (history, [])
  | history, errorComment :: rest =>
    let first := deliver x pullCtx client history errorComment
    let later := deliverAll x pullCtx client first.1 rest
    (later.1, first.2 :: later.2)

/-- The executor construction of `ProcessPullRequest` (lines 46 to 53) on its
own: the merger handed on and the calls made so far, or the failure of
`NewTokenClient`. -/
def buildMerger (b : Base) (client : Client) (pr : PullRequest) : Result (Merger × List Call) :=
  if b.PushRestrictionUserToken ≠ "" then
    match b.NewTokenClient b.PushRestrictionUserToken with
    | .fail err => .fail err
    | .ok tokenClient =>
      .ok (NewPushRestrictionMerger (NewGitHubMerger client) (NewGitHubMerger tokenClient),
           [.ConfigForPR client pr, .NewTokenClient b.PushRestrictionUserToken])
  else
    .ok (NewGitHubMerger client, [.ConfigForPR client pr])

/-- The part of `ProcessPullRequest` after a merge that failed with `err`
(lines 70 to 75), as calls appended to the run. -/
def reportFailure (x : Externals) (pullCtx : PullContext) (client : Client) (err : GoError) :
    List Call :=
  if err.isErrComment then
    match (addUniqueComment x pullCtx client err.Error).err with
    | some err2 =>
      (addUniqueComment x pullCtx client err.Error).calls ++
        [.Log .error (some err2) "fail to post unique comment"]
    | none => (addUniqueComment x pullCtx client err.Error).calls
  else []

/-- The `switch` of `ProcessPullRequest` (lines 55 to 80) on its own, for a
merger that was built and the calls made so far. -/
def switchMerge (x : Externals) (pullCtx : PullContext) (client : Client) (merger : Merger)
    (trace : List Call) : FetchedConfig → Run
  | .absent => ⟨trace ++ [.Log .debug none "No configuration found for %s"], none⟩
  | .invalid => ⟨trace ++ [.Log .warn none "Configuration is invalid for %s"], none⟩
  | .valid config =>
    match x.ShouldMergePR pullCtx config.Merge with
    | .fail err =>
      ⟨trace ++ [.Log .debug none "Found valid configuration for %s",
                 .ShouldMergePR pullCtx config.Merge],
       some (.wrap err "unable to determine merge status")⟩
    | .ok false =>
      ⟨trace ++ [.Log .debug none "Found valid configuration for %s",
                 .ShouldMergePR pullCtx config.Merge], none⟩
    | .ok true =>
      match x.MergePR pullCtx merger config.Merge with
      | none =>
        ⟨trace ++ [.Log .debug none "Found valid configuration for %s",
                   .ShouldMergePR pullCtx config.Merge,
                   .MergePR pullCtx merger config.Merge], none⟩
      | some err =>
        ⟨trace ++ [.Log .debug none "Found valid configuration for %s",
                   .ShouldMergePR pullCtx config.Merge,
                   .MergePR pullCtx merger config.Merge,
                   .Log .error (some err) "failed to merge pull request"]
            ++ reportFailure x pullCtx client err, none⟩

/-- Collaborators whose two condition evaluators fail. -/
def failingEvaluators : Externals :=
  { sampleExternals with
    ShouldMergePR := fun _ _ => .fail (.other "status unavailable")
    ShouldUpdatePR := fun _ _ => .fail (.other "status unavailable") }

/-! ## Lemmas on the deduplication loop -/

theorem foldl_shouldComment (x : Externals) (errorComment : String) (comments : List String)
    (start : Bool) :
    comments.foldl
      (fun shouldComment comment =>
        if x.EqualFold comment errorComment then false else shouldComment) start
      = (start && !comments.any (fun comment => x.EqualFold comment errorComment)) := by
  induction comments generalizing start with
  | nil => simp
  | cons comment rest ih =>
    simp only [List.foldl_cons, List.any_cons, ih]
    cases x.EqualFold comment errorComment <;> simp

theorem shouldCommentLoop_eq (x : Externals) (comments : List String) (errorComment : String) :
    shouldCommentLoop x comments errorComment
      = !comments.any (fun comment => x.EqualFold comment errorComment) := by
  unfold shouldCommentLoop
  rw [foldl_shouldComment]
  simp

theorem shouldCommentLoop_true (x : Externals) (comments : List String) (errorComment : String)
    (hnew : ∀ body ∈ comments, x.EqualFold body errorComment = false) :
    shouldCommentLoop x comments errorComment = true := by
  rw [shouldCommentLoop_eq]
  simp only [Bool.not_eq_true', List.any_eq_false]
  intro body hbody
  simp [hnew body hbody]

theorem shouldCommentLoop_false (x : Externals) (comments : List String) (errorComment : String)
    (body : String) (hmem : body ∈ comments) (hmatch : x.EqualFold body errorComment = true) :
    shouldCommentLoop x comments errorComment = false := by
  rw [shouldCommentLoop_eq]
  simp only [Bool.not_eq_false', List.any_eq_true]
  exact ⟨body, hmem, hmatch⟩


/-! ## `ProcessPullRequest` in stages -/

theorem ProcessPullRequest_eq (b : Base) (x : Externals) (pullCtx : PullContext)
    (client : Client) (pr : PullRequest) :
    ProcessPullRequest b x pullCtx client pr =
      match b.ConfigForPR client pr with
      | .fail err =>
        ⟨[.ConfigForPR client pr], some (.wrap err "failed to fetch configuration")⟩
      | .ok bulldozerConfig =>
        match buildMerger b client pr with
        | .fail err =>
          ⟨[.ConfigForPR client pr, .NewTokenClient b.PushRestrictionUserToken],
           some (.wrap err "failed to create token client")⟩
        | .ok built => switchMerge x pullCtx client built.1 built.2 bulldozerConfig := by
  unfold ProcessPullRequest
  cases hcf : b.ConfigForPR client pr with
  | fail err => rfl
  | ok bulldozerConfig =>
    simp only []
    rw [show (if b.PushRestrictionUserToken ≠ "" then
          match b.NewTokenClient b.PushRestrictionUserToken with
          | .fail err => (Result.fail err : Result (Merger × List Call))
          | .ok tokenClient =>
            .ok (NewPushRestrictionMerger (NewGitHubMerger client) (NewGitHubMerger tokenClient),
                 [.ConfigForPR client pr, .NewTokenClient b.PushRestrictionUserToken])
        else .ok (NewGitHubMerger client, [.ConfigForPR client pr]))
        = buildMerger b client pr from rfl]
    cases hb : buildMerger b client pr with
    | fail err => rfl
    | ok built =>
      obtain ⟨merger, trace⟩ := built
      cases bulldozerConfig with
      | absent => rfl
      | invalid => rfl
      | valid config =>
        simp only [switchMerge]
        cases hsm : x.ShouldMergePR pullCtx config.Merge with
        | fail err => simp
        | ok shouldMerge =>
          cases shouldMerge with
          | false => simp
          | true =>
            cases hm : x.MergePR pullCtx merger config.Merge with
            | none => simp
            | some err =>
              simp only [reportFailure, if_true]
              cases hec : err.isErrComment with
              | false => simp
              | true =>
                cases hp : (addUniqueComment x pullCtx client err.Error).err <;> simp

theorem buildMerger_ok (b : Base) (client : Client) (pr : PullRequest) (merger : Merger)
    (trace : List Call) (hb : buildMerger b client pr = .ok (merger, trace)) :
    (b.PushRestrictionUserToken = "" ∧ merger = NewGitHubMerger client
        ∧ trace = [.ConfigForPR client pr])
    ∨ (b.PushRestrictionUserToken ≠ "" ∧ ∃ tokenClient,
        b.NewTokenClient b.PushRestrictionUserToken = .ok tokenClient
        ∧ merger = NewPushRestrictionMerger (NewGitHubMerger client) (NewGitHubMerger tokenClient)
        ∧ trace = [.ConfigForPR client pr, .NewTokenClient b.PushRestrictionUserToken]) := by
  unfold buildMerger at hb
  by_cases htok : b.PushRestrictionUserToken = ""
  · left
    simp [htok] at hb
    exact ⟨htok, hb.1.symm, hb.2.symm⟩
  · right
    cases hntc : b.NewTokenClient b.PushRestrictionUserToken with
    | fail err => simp [htok, hntc] at hb
    | ok tokenClient =>
      simp [htok, hntc] at hb
      exact ⟨htok, tokenClient, rfl, hb.1.symm, hb.2.symm⟩

theorem buildMerger_fail (b : Base) (client : Client) (pr : PullRequest) (err : GoError)
    (hb : buildMerger b client pr = .fail err) :
    b.PushRestrictionUserToken ≠ "" ∧ b.NewTokenClient b.PushRestrictionUserToken = .fail err := by
  unfold buildMerger at hb
  by_cases htok : b.PushRestrictionUserToken = ""
  · simp [htok] at hb
  · cases hntc : b.NewTokenClient b.PushRestrictionUserToken with
    | fail err2 =>
      simp [htok, hntc] at hb
      exact ⟨htok, by rw [hb]⟩
    | ok tokenClient => simp [htok, hntc] at hb

theorem buildMerger_empty (b : Base) (client : Client) (pr : PullRequest)
    (htok : b.PushRestrictionUserToken = "") :
    buildMerger b client pr = .ok (NewGitHubMerger client, [.ConfigForPR client pr]) := by
  simp [buildMerger, htok]

theorem buildMerger_token (b : Base) (client : Client) (pr : PullRequest) (tokenClient : Client)
    (htok : b.PushRestrictionUserToken ≠ "")
    (hntc : b.NewTokenClient b.PushRestrictionUserToken = .ok tokenClient) :
    buildMerger b client pr =
      .ok (NewPushRestrictionMerger (NewGitHubMerger client) (NewGitHubMerger tokenClient),
           [.ConfigForPR client pr, .NewTokenClient b.PushRestrictionUserToken]) := by
  simp [buildMerger, htok, hntc]

/-- The calls made before the `switch` are the configuration fetch and, with a
token, the token client creation. -/
theorem buildMerger_trace (b : Base) (client : Client) (pr : PullRequest) (merger : Merger)
    (trace : List Call) (hb : buildMerger b client pr = .ok (merger, trace)) :
    ∀ c ∈ trace, c = .ConfigForPR client pr ∨ c = .NewTokenClient b.PushRestrictionUserToken := by
  intro c hc
  rcases buildMerger_ok b client pr merger trace hb with ⟨_, _, ht⟩ | ⟨_, _, _, _, ht⟩
  · subst ht
    simp at hc
    exact Or.inl hc
  · subst ht
    simp at hc
    exact hc

/-! ## Lemmas on `addUniqueComment` -/

theorem addUniqueComment_unmatched (x : Externals) (pullCtx : PullContext) (client : Client)
    (errorComment : String) (history : List String)
    (hlist : pullCtx.Comments = .ok history)
    (hnew : ∀ body ∈ history, x.EqualFold body errorComment = false) :
    (addUniqueComment x pullCtx client errorComment).calls =
      [.Comments pullCtx,
       .CreateComment client pullCtx.Owner pullCtx.Repo pullCtx.Number errorComment] := by
  unfold addUniqueComment
  rw [hlist]
  simp only [shouldCommentLoop_true x history errorComment hnew, if_true]
  cases x.CreateComment client pullCtx.Owner pullCtx.Repo pullCtx.Number errorComment <;> rfl

theorem addUniqueComment_matched (x : Externals) (pullCtx : PullContext) (client : Client)
    (errorComment : String) (history : List String) (body : String)
    (hlist : pullCtx.Comments = .ok history)
    (hmem : body ∈ history) (hmatch : x.EqualFold body errorComment = true) :
    addUniqueComment x pullCtx client errorComment = ⟨[.Comments pullCtx], none⟩ := by
  unfold addUniqueComment
  rw [hlist]
  simp [shouldCommentLoop_false x history errorComment body hmem hmatch]

theorem addUniqueComment_calls (x : Externals) (pullCtx : PullContext) (client : Client)
    (errorComment : String) :
    ∀ c ∈ (addUniqueComment x pullCtx client errorComment).calls,
      c = .Comments pullCtx
      ∨ c = .CreateComment client pullCtx.Owner pullCtx.Repo pullCtx.Number errorComment := by
  intro c hc
  unfold addUniqueComment at hc
  cases hlist : pullCtx.Comments with
  | fail err =>
    simp [hlist] at hc
    exact Or.inl hc
  | ok comments =>
    simp only [hlist] at hc
    cases hloop : shouldCommentLoop x comments errorComment with
    | false =>
      simp [hloop] at hc
      exact Or.inl hc
    | true =>
      simp only [hloop, if_true] at hc
      cases hpost : x.CreateComment client pullCtx.Owner pullCtx.Repo pullCtx.Number
          errorComment with
      | none =>
        simp [hpost] at hc
        exact hc
      | some err =>
        simp [hpost] at hc
        exact hc

theorem reportFailure_calls (x : Externals) (pullCtx : PullContext) (client : Client)
    (err : GoError) :
    ∀ c ∈ reportFailure x pullCtx client err,
      err.isErrComment = true ∧
      (c = .Comments pullCtx
        ∨ c = .CreateComment client pullCtx.Owner pullCtx.Repo pullCtx.Number err.Error
        ∨ ∃ err2, c = .Log .error (some err2) "fail to post unique comment") := by
  intro c hc
  unfold reportFailure at hc
  cases hec : err.isErrComment with
  | false => simp [hec] at hc
  | true =>
    refine ⟨rfl, ?_⟩
    simp only [hec, if_true] at hc
    cases hp : (addUniqueComment x pullCtx client err.Error).err with
    | none =>
      simp only [hp] at hc
      rcases addUniqueComment_calls x pullCtx client err.Error c hc with h | h
      · exact Or.inl h
      · exact Or.inr (Or.inl h)
    | some err2 =>
      simp only [hp, List.mem_append, List.mem_singleton] at hc
      rcases hc with hc | hc
      · rcases addUniqueComment_calls x pullCtx client err.Error c hc with h | h
        · exact Or.inl h
        · exact Or.inr (Or.inl h)
      · exact Or.inr (Or.inr ⟨err2, hc⟩)

/-- Where a `MergePR` call in a run of `ProcessPullRequest` comes from. -/
theorem mergePR_mem_calls (b : Base) (x : Externals) (pullCtx : PullContext) (client : Client)
    (pr : PullRequest) (pctx : PullContext) (merger : Merger) (settings : MergeConfig)
    (hmem : Call.MergePR pctx merger settings ∈ (ProcessPullRequest b x pullCtx client pr).calls) :
    ∃ config trace,
      b.ConfigForPR client pr = .ok (.valid config)
      ∧ buildMerger b client pr = .ok (merger, trace)
      ∧ pctx = pullCtx ∧ settings = config.Merge
      ∧ x.ShouldMergePR pullCtx config.Merge = .ok true
      ∧ ProcessPullRequest b x pullCtx client pr
          = switchMerge x pullCtx client merger trace (.valid config) := by
  have heq := ProcessPullRequest_eq b x pullCtx client pr
  rw [heq] at hmem
  cases hcf : b.ConfigForPR client pr with
  | fail err => simp [hcf] at hmem
  | ok bulldozerConfig =>
    cases hb : buildMerger b client pr with
    | fail err => simp [hcf, hb] at hmem
    | ok built =>
      obtain ⟨m, trace⟩ := built
      have htr := buildMerger_trace b client pr m trace hb
      have hnot : Call.MergePR pctx merger settings ∉ trace := by
        intro h
        rcases htr _ h with h1 | h1 <;> simp at h1
      simp only [hcf, hb] at hmem heq
      cases bulldozerConfig with
      | absent => simp [switchMerge, hnot] at hmem
      | invalid => simp [switchMerge, hnot] at hmem
      | valid config =>
        cases hsm : x.ShouldMergePR pullCtx config.Merge with
        | fail err => simp [switchMerge, hsm, hnot] at hmem
        | ok shouldMerge =>
          cases shouldMerge with
          | false => simp [switchMerge, hsm, hnot] at hmem
          | true =>
            have hrep : ∀ err, Call.MergePR pctx merger settings
                ∉ reportFailure x pullCtx client err := by
              intro err h
              rcases (reportFailure_calls x pullCtx client err _ h).2 with h1 | h1 | ⟨_, h1⟩
                <;> simp at h1
            cases hm : x.MergePR pullCtx m config.Merge with
            | none =>
              simp [switchMerge, hsm, hm, hnot] at hmem
              obtain ⟨h1, h2, h3⟩ := hmem
              subst h1 h2 h3
              exact ⟨config, trace, rfl, rfl, rfl, rfl, hsm, heq⟩
            | some err =>
              simp [switchMerge, hsm, hm, hnot, hrep] at hmem
              obtain ⟨h1, h2, h3⟩ := hmem
              subst h1 h2 h3
              exact ⟨config, trace, rfl, rfl, rfl, rfl, hsm, heq⟩

theorem switchMerge_failed_calls (x : Externals) (pullCtx : PullContext) (client : Client)
    (merger : Merger) (trace : List Call) (config : Config) (err : GoError)
    (hsm : x.ShouldMergePR pullCtx config.Merge = .ok true)
    (hm : x.MergePR pullCtx merger config.Merge = some err) :
    switchMerge x pullCtx client merger trace (.valid config) =
      ⟨trace ++ [.Log .debug none "Found valid configuration for %s",
                 .ShouldMergePR pullCtx config.Merge,
                 .MergePR pullCtx merger config.Merge,
                 .Log .error (some err) "failed to merge pull request"]
          ++ reportFailure x pullCtx client err, none⟩ := by
  simp [switchMerge, hsm, hm]

theorem buildMerger_no_createComment (b : Base) (client : Client) (pr : PullRequest)
    (merger : Merger) (trace : List Call) (hb : buildMerger b client pr = .ok (merger, trace)) :
    trace.filter Call.isCreateComment = [] := by
  rcases buildMerger_ok b client pr merger trace hb with ⟨_, _, ht⟩ | ⟨_, _, _, _, ht⟩ <;>
    subst ht <;> simp [Call.isCreateComment]

theorem reportFailure_created (x : Externals) (pullCtx : PullContext) (client : Client)
    (err : GoError) (hec : err.isErrComment = true) :
    (reportFailure x pullCtx client err).filter Call.isCreateComment
      = (addUniqueComment x pullCtx client err.Error).calls.filter Call.isCreateComment := by
  unfold reportFailure
  simp only [hec, if_true]
  cases hp : (addUniqueComment x pullCtx client err.Error).err <;>
    simp [Call.isCreateComment]

/-- The `CreateComment` calls of a run of `ProcessPullRequest` in which `MergePR`
was invoked and failed with an `*ErrComment` are those of `addUniqueComment` on
the text of the error. -/
theorem ProcessPullRequest_created (b : Base) (x : Externals) (pullCtx : PullContext)
    (client : Client) (pr : PullRequest) (merger : Merger) (settings : MergeConfig)
    (err : GoError)
    (hmem : Call.MergePR pullCtx merger settings
      ∈ (ProcessPullRequest b x pullCtx client pr).calls)
    (hm : x.MergePR pullCtx merger settings = some err)
    (hec : err.isErrComment = true) :
    (ProcessPullRequest b x pullCtx client pr).calls.filter Call.isCreateComment
      = (addUniqueComment x pullCtx client err.Error).calls.filter Call.isCreateComment := by
  obtain ⟨config, trace, _, hb, _, hs, hsm, heq⟩ :=
    mergePR_mem_calls b x pullCtx client pr pullCtx merger settings hmem
  subst hs
  rw [heq, switchMerge_failed_calls x pullCtx client merger trace config err hsm hm]
  simp only [List.filter_append, buildMerger_no_createComment b client pr merger trace hb,
    reportFailure_created x pullCtx client err hec]
  simp [Call.isCreateComment]

/-! ## Lemmas on deliveries against the comment store -/

theorem deliver_matched (x : Externals) (pullCtx : PullContext) (client : Client)
    (history : List String) (errorComment : String) (body : String)
    (hmem : body ∈ history) (hmatch : x.EqualFold body errorComment = true) :
    deliver x pullCtx client history errorComment =
      (history, ⟨[.Comments { pullCtx with Comments := .ok history }], none⟩) := by
  unfold deliver
  rw [addUniqueComment_matched x { pullCtx with Comments := .ok history } client errorComment
    history body rfl hmem hmatch]
  simp [createdBodies]

theorem deliver_unmatched (x : Externals) (pullCtx : PullContext) (client : Client)
    (history : List String) (errorComment : String)
    (hpost : ∀ c owner repo number body, x.CreateComment c owner repo number body = none)
    (hnew : ∀ body ∈ history, x.EqualFold body errorComment = false) :
    deliver x pullCtx client history errorComment =
      (history ++ [errorComment],
       ⟨[.Comments { pullCtx with Comments := .ok history },
         .CreateComment client pullCtx.Owner pullCtx.Repo pullCtx.Number errorComment], none⟩) := by
  unfold deliver addUniqueComment
  simp [shouldCommentLoop_true x history errorComment hnew, hpost, createdBodies]

/-- Every history either holds a body that matches the text or holds none. -/
theorem matched_or_unmatched (x : Externals) (history : List String) (errorComment : String) :
    (∃ body ∈ history, x.EqualFold body errorComment = true)
    ∨ (∀ body ∈ history, x.EqualFold body errorComment = false) := by
  by_cases h : ∃ body ∈ history, x.EqualFold body errorComment = true
  · exact Or.inl h
  · right
    intro body hbody
    cases hb : x.EqualFold body errorComment with
    | false => rfl
    | true => exact absurd ⟨body, hbody, hb⟩ h

/-- Deliveries of texts that all match a body already in the history post
nothing and leave the history as it is. -/
theorem deliverAll_matched (x : Externals) (pullCtx : PullContext) (client : Client)
    (texts : List String) (history : List String) (body : String)
    (hmem : body ∈ history) (hall : ∀ t ∈ texts, x.EqualFold body t = true) :
    (deliverAll x pullCtx client history texts).1 = history
    ∧ ∀ run ∈ (deliverAll x pullCtx client history texts).2,
        createdBodies run.calls = [] ∧ run.err = none := by
  induction texts with
  | nil => simp [deliverAll]
  | cons t rest ih =>
    have hfirst := deliver_matched x pullCtx client history t body hmem
      (hall t (List.mem_cons_self _ _))
    have hrest := ih (fun u hu => hall u (List.mem_cons_of_mem _ hu))
    simp only [deliverAll, hfirst]
    refine ⟨hrest.1, ?_⟩
    intro run hrun
    rcases List.mem_cons.mp hrun with h | h
    · subst h
      simp [createdBodies]
    · exact hrest.2 run h

/-! ## Runs without a valid configuration -/

theorem ProcessPullRequest_no_config (b : Base) (x : Externals) (pullCtx : PullContext)
    (client : Client) (pr : PullRequest) (fetched : FetchedConfig) (merger : Merger)
    (trace : List Call)
    (hcf : b.ConfigForPR client pr = .ok fetched)
    (hstate : fetched = .absent ∨ fetched = .invalid)
    (hb : buildMerger b client pr = .ok (merger, trace)) :
    ∃ level msg,
      ProcessPullRequest b x pullCtx client pr = ⟨trace ++ [.Log level none msg], none⟩ := by
  rw [ProcessPullRequest_eq, hcf]
  simp only [hb]
  rcases hstate with h | h <;> subst h
  · exact ⟨.debug, _, rfl⟩
  · exact ⟨.warn, _, rfl⟩

theorem ProcessPullRequest_token_failure (b : Base) (x : Externals) (pullCtx : PullContext)
    (client : Client) (pr : PullRequest) (fetched : FetchedConfig) (err : GoError)
    (hcf : b.ConfigForPR client pr = .ok fetched)
    (htok : b.PushRestrictionUserToken ≠ "")
    (hntc : b.NewTokenClient b.PushRestrictionUserToken = .fail err) :
    ProcessPullRequest b x pullCtx client pr =
      ⟨[.ConfigForPR client pr, .NewTokenClient b.PushRestrictionUserToken],
       some (.wrap err "failed to create token client")⟩ := by
  rw [ProcessPullRequest_eq, hcf]
  simp [buildMerger, htok, hntc]

theorem UpdatePullRequest_no_config (b : Base) (x : Externals) (pullCtx : PullContext)
    (client : Client) (pr : PullRequest) (baseRef : String) (fetched : FetchedConfig)
    (hcf : b.ConfigForPR client pr = .ok fetched)
    (hstate : fetched = .absent ∨ fetched = .invalid) :
    ∃ level msg,
      UpdatePullRequest b x pullCtx client pr baseRef =
        ⟨[.ConfigForPR client pr, .Log level none msg], none⟩ := by
  unfold UpdatePullRequest
  rw [hcf]
  rcases hstate with h | h <;> subst h
  · exact ⟨.debug, _, rfl⟩
  · exact ⟨.warn, _, rfl⟩

/-! ## Runs with a valid configuration -/

/-- A run of `ProcessPullRequest` that got as far as the merge condition
evaluator has built its merger. -/
theorem shouldMergePR_mem_calls (b : Base) (x : Externals) (pullCtx : PullContext)
    (client : Client) (pr : PullRequest) (config : Config)
    (hcf : b.ConfigForPR client pr = .ok (.valid config))
    (hcalled : Call.ShouldMergePR pullCtx config.Merge
      ∈ (ProcessPullRequest b x pullCtx client pr).calls) :
    ∃ merger trace,
      buildMerger b client pr = .ok (merger, trace)
      ∧ ProcessPullRequest b x pullCtx client pr
          = switchMerge x pullCtx client merger trace (.valid config) := by
  have heq := ProcessPullRequest_eq b x pullCtx client pr
  rw [hcf] at heq
  cases hb : buildMerger b client pr with
  | fail err =>
    simp only [hb] at heq
    rw [heq] at hcalled
    simp at hcalled
  | ok built =>
    obtain ⟨merger, trace⟩ := built
    simp only [hb] at heq
    exact ⟨merger, trace, rfl, heq⟩

theorem buildMerger_trace_quiet (b : Base) (client : Client) (pr : PullRequest)
    (merger : Merger) (trace : List Call) (hb : buildMerger b client pr = .ok (merger, trace)) :
    ∀ c ∈ trace, c.isMergePR = false ∧ c.isUpdatePR = false ∧ c.isEvaluator = false
      ∧ c.isCommentCall = false := by
  intro c hc
  rcases buildMerger_trace b client pr merger trace hb c hc with h | h <;> subst h <;>
    simp [Call.isMergePR, Call.isUpdatePR, Call.isEvaluator, Call.isCommentCall,
      Call.isComments, Call.isCreateComment]

/-! ## The errors the two methods return -/

theorem switchMerge_err (x : Externals) (pullCtx : PullContext) (client : Client)
    (merger : Merger) (trace : List Call) (fetched : FetchedConfig) (e : GoError) :
    (switchMerge x pullCtx client merger trace fetched).err = some e ↔
      ∃ config err, fetched = .valid config
        ∧ x.ShouldMergePR pullCtx config.Merge = .fail err
        ∧ e = .wrap err "unable to determine merge status" := by
  cases fetched with
  | absent => simp [switchMerge]
  | invalid => simp [switchMerge]
  | valid config =>
    cases hsm : x.ShouldMergePR pullCtx config.Merge with
    | fail err =>
      simp only [switchMerge, hsm, Option.some.injEq, FetchedConfig.valid.injEq]
      constructor
      · intro h
        exact ⟨config, err, rfl, hsm, h.symm⟩
      · rintro ⟨config2, err2, hc, hs, he⟩
        subst hc
        rw [hsm] at hs
        cases hs
        exact he.symm
    | ok shouldMerge =>
      cases shouldMerge with
      | false =>
        simp only [switchMerge, hsm]
        constructor
        · intro h
          cases h
        · rintro ⟨config2, err2, hc, hs, _⟩
          cases hc
          rw [hsm] at hs
          cases hs
      | true =>
        have hnone : (switchMerge x pullCtx client merger trace (.valid config)).err = none := by
          cases hm : x.MergePR pullCtx merger config.Merge <;> simp [switchMerge, hsm, hm]
        rw [hnone]
        constructor
        · intro h
          cases h
        · rintro ⟨config2, err2, hc, hs, _⟩
          cases hc
          rw [hsm] at hs
          cases hs

/-- The three ways in which `ProcessPullRequest` returns an error. -/
theorem ProcessPullRequest_err (b : Base) (x : Externals) (pullCtx : PullContext)
    (client : Client) (pr : PullRequest) (e : GoError) :
    (ProcessPullRequest b x pullCtx client pr).err = some e ↔
      (∃ err, b.ConfigForPR client pr = .fail err
          ∧ e = .wrap err "failed to fetch configuration")
      ∨ (∃ fetched err, b.ConfigForPR client pr = .ok fetched
          ∧ b.PushRestrictionUserToken ≠ ""
          ∧ b.NewTokenClient b.PushRestrictionUserToken = .fail err
          ∧ e = .wrap err "failed to create token client")
      ∨ (∃ config err merger trace, b.ConfigForPR client pr = .ok (.valid config)
          ∧ buildMerger b client pr = .ok (merger, trace)
          ∧ x.ShouldMergePR pullCtx config.Merge = .fail err
          ∧ e = .wrap err "unable to determine merge status") := by
  rw [ProcessPullRequest_eq]
  cases hcf : b.ConfigForPR client pr with
  | fail err =>
    simp only [Option.some.injEq]
    constructor
    · intro h
      exact Or.inl ⟨err, rfl, h.symm⟩
    · rintro (⟨err2, h1, h2⟩ | ⟨_, _, h1, _⟩ | ⟨_, _, _, _, h1, _⟩)
      · cases h1
        exact h2.symm
      · cases h1
      · cases h1
  | ok fetched =>
    cases hb : buildMerger b client pr with
    | fail err =>
      obtain ⟨htok, hntc⟩ := buildMerger_fail b client pr err hb
      simp only [Option.some.injEq]
      constructor
      · intro h
        exact Or.inr (Or.inl ⟨fetched, err, rfl, htok, hntc, h.symm⟩)
      · rintro (⟨_, h1, _⟩ | ⟨_, err2, _, _, h1, h2⟩ | ⟨_, _, _, _, _, h1, _⟩)
        · cases h1
        · rw [hntc] at h1
          cases h1
          exact h2.symm
        · cases h1
    | ok built =>
      obtain ⟨merger, trace⟩ := built
      simp only []
      rw [switchMerge_err]
      constructor
      · rintro ⟨config, err, hf, hs, he⟩
        subst hf
        exact Or.inr (Or.inr ⟨config, err, merger, trace, rfl, rfl, hs, he⟩)
      · rintro (⟨_, h1, _⟩ | ⟨_, err2, _, htok, hntc, _⟩ | ⟨config, err, _, _, h1, _, hs, he⟩)
        · cases h1
        · rcases buildMerger_ok b client pr merger trace hb with ⟨h, _⟩ | ⟨_, tc, h, _⟩
          · exact absurd h htok
          · rw [hntc] at h
            cases h
        · cases h1
          exact ⟨config, err, rfl, hs, he⟩

/-- The two ways in which `UpdatePullRequest` returns an error. -/
theorem UpdatePullRequest_err (b : Base) (x : Externals) (pullCtx : PullContext)
    (client : Client) (pr : PullRequest) (baseRef : String) (e : GoError) :
    (UpdatePullRequest b x pullCtx client pr baseRef).err = some e ↔
      (∃ err, b.ConfigForPR client pr = .fail err
          ∧ e = .wrap err "failed to fetch configuration")
      ∨ (∃ config err, b.ConfigForPR client pr = .ok (.valid config)
          ∧ x.ShouldUpdatePR pullCtx config.Update = .fail err
          ∧ e = .wrap err "unable to determine update status") := by
  unfold UpdatePullRequest
  cases hcf : b.ConfigForPR client pr with
  | fail err =>
    simp only [Option.some.injEq]
    constructor
    · intro h
      exact Or.inl ⟨err, rfl, h.symm⟩
    · rintro (⟨err2, h1, h2⟩ | ⟨_, _, h1, _⟩)
      · cases h1
        exact h2.symm
      · cases h1
  | ok fetched =>
    cases fetched with
    | absent => simp
    | invalid => simp
    | valid config =>
      cases hsu : x.ShouldUpdatePR pullCtx config.Update with
      | fail err =>
        simp only [hsu, Option.some.injEq]
        constructor
        · intro h
          exact Or.inr ⟨config, err, rfl, hsu, h.symm⟩
        · rintro (⟨_, h1, _⟩ | ⟨config2, err2, h1, hs, he⟩)
          · cases h1
          · cases h1
            rw [hsu] at hs
            cases hs
            exact he.symm
      | ok shouldUpdate =>
        cases shouldUpdate
        · simp only [hsu, Bool.false_eq_true, if_false]
          constructor
          · intro h
            cases h
          · rintro (⟨_, h1, _⟩ | ⟨config2, err2, h1, hs, _⟩)
            · cases h1
            · cases h1
              rw [hsu] at hs
              cases hs
        · simp only [hsu, if_true]
          constructor
          · intro h
            cases h
          · rintro (⟨_, h1, _⟩ | ⟨config2, err2, h1, hs, _⟩)
            · cases h1
            · cases h1
              rw [hsu] at hs
              cases hs

/-! ## The texts of the returned errors -/

theorem wrap_Error (err : GoError) (message : String) :
    (GoError.wrap err message).Error = message ++ ": " ++ err.Error := rfl

theorem startsWith_wrap (err : GoError) (message : String) :
    startsWith message (GoError.wrap err message).Error = true := by
  unfold startsWith
  rw [List.isPrefixOf_iff_prefix, wrap_Error]
  simp only [String.data_append, List.append_assoc]
  exact List.prefix_append _ _

theorem fetch_text_not_merge (err : GoError) :
    startsWith "unable to determine merge status"
      (GoError.wrap err "failed to fetch configuration").Error = false := by
  unfold startsWith
  rw [wrap_Error]
  simp only [String.data_append, List.append_assoc]
  rfl

theorem fetch_text_not_update (err : GoError) :
    startsWith "unable to determine update status"
      (GoError.wrap err "failed to fetch configuration").Error = false := by
  unfold startsWith
  rw [wrap_Error]
  simp only [String.data_append, List.append_assoc]
  rfl

theorem token_text_not_merge (err : GoError) :
    startsWith "unable to determine merge status"
      (GoError.wrap err "failed to create token client").Error = false := by
  unfold startsWith
  rw [wrap_Error]
  simp only [String.data_append, List.append_assoc]
  rfl

theorem token_text_not_update (err : GoError) :
    startsWith "unable to determine update status"
      (GoError.wrap err "failed to create token client").Error = false := by
  unfold startsWith
  rw [wrap_Error]
  simp only [String.data_append, List.append_assoc]
  rfl

/-- A run of `UpdatePullRequest` in which `UpdatePR` was invoked returns nil. -/
theorem UpdatePullRequest_updated_nil (b : Base) (x : Externals) (pullCtx : PullContext)
    (client : Client) (pr : PullRequest) (baseRef : String) (c : Call)
    (hc : c ∈ (UpdatePullRequest b x pullCtx client pr baseRef).calls)
    (hup : c.isUpdatePR = true) :
    (UpdatePullRequest b x pullCtx client pr baseRef).err = none := by
  cases hrun : (UpdatePullRequest b x pullCtx client pr baseRef).err with
  | none => rfl
  | some e =>
    exfalso
    rcases (UpdatePullRequest_err b x pullCtx client pr baseRef e).mp hrun with
      ⟨err, hcf, _⟩ | ⟨config, err, hcf, hsu, _⟩
    · unfold UpdatePullRequest at hc
      rw [hcf] at hc
      simp only [List.mem_singleton] at hc
      subst hc
      simp [Call.isUpdatePR] at hup
    · unfold UpdatePullRequest at hc
      rw [hcf] at hc
      simp only [hsu, List.mem_append, List.mem_cons, List.mem_singleton, List.not_mem_nil,
        or_false] at hc
      rcases hc with hc | hc | hc <;> subst hc <;> simp [Call.isUpdatePR] at hup

/-! ## The calls of the `switch` of `ProcessPullRequest` -/

theorem isErrComment_text (err : GoError) (hec : err.isErrComment = true) :
    ∃ text, err = .errComment text := by
  cases err with
  | errComment text => exact ⟨text, rfl⟩
  | other text => simp [GoError.isErrComment] at hec
  | wrap cause message => simp [GoError.isErrComment] at hec

/-- Every call of the `switch` is one made before it, a log line, the merge
condition evaluation, the merge (after the evaluator said yes), or a comment
call (after the merge failed with an `*ErrComment`). -/
theorem switchMerge_calls_mem (x : Externals) (pullCtx : PullContext) (client : Client)
    (merger : Merger) (trace : List Call) (fetched : FetchedConfig) (c : Call)
    (hc : c ∈ (switchMerge x pullCtx client merger trace fetched).calls) :
    c ∈ trace
    ∨ (∃ level err msg, c = .Log level err msg)
    ∨ (∃ config, fetched = .valid config
        ∧ (c = .ShouldMergePR pullCtx config.Merge
          ∨ (c = .MergePR pullCtx merger config.Merge
              ∧ x.ShouldMergePR pullCtx config.Merge = .ok true)
          ∨ (c.isCommentCall = true
              ∧ x.ShouldMergePR pullCtx config.Merge = .ok true
              ∧ ∃ text, x.MergePR pullCtx merger config.Merge = some (.errComment text)))) := by
  cases fetched with
  | absent =>
    simp only [switchMerge, List.mem_append, List.mem_singleton] at hc
    rcases hc with h | h
    · exact Or.inl h
    · exact Or.inr (Or.inl ⟨_, _, _, h⟩)
  | invalid =>
    simp only [switchMerge, List.mem_append, List.mem_singleton] at hc
    rcases hc with h | h
    · exact Or.inl h
    · exact Or.inr (Or.inl ⟨_, _, _, h⟩)
  | valid config =>
    cases hsm : x.ShouldMergePR pullCtx config.Merge with
    | fail err =>
      simp only [switchMerge, hsm, List.mem_append, List.mem_cons, List.mem_singleton,
        List.not_mem_nil, or_false] at hc
      rcases hc with h | h | h
      · exact Or.inl h
      · exact Or.inr (Or.inl ⟨_, _, _, h⟩)
      · exact Or.inr (Or.inr ⟨config, rfl, Or.inl h⟩)
    | ok shouldMerge =>
      cases shouldMerge with
      | false =>
        simp only [switchMerge, hsm, List.mem_append, List.mem_cons, List.mem_singleton,
          List.not_mem_nil, or_false] at hc
        rcases hc with h | h | h
        · exact Or.inl h
        · exact Or.inr (Or.inl ⟨_, _, _, h⟩)
        · exact Or.inr (Or.inr ⟨config, rfl, Or.inl h⟩)
      | true =>
        cases hm : x.MergePR pullCtx merger config.Merge with
        | none =>
          simp only [switchMerge, hsm, hm, List.mem_append, List.mem_cons, List.mem_singleton,
            List.not_mem_nil, or_false] at hc
          rcases hc with h | h | h | h
          · exact Or.inl h
          · exact Or.inr (Or.inl ⟨_, _, _, h⟩)
          · exact Or.inr (Or.inr ⟨config, rfl, Or.inl h⟩)
          · exact Or.inr (Or.inr ⟨config, rfl, Or.inr (Or.inl ⟨h, hsm⟩)⟩)
        | some err =>
          simp only [switchMerge, hsm, hm, List.mem_append, List.mem_cons, List.mem_singleton,
            List.not_mem_nil, or_false] at hc
          rcases hc with (h | h | h | h | h) | h
          · exact Or.inl h
          · exact Or.inr (Or.inl ⟨_, _, _, h⟩)
          · exact Or.inr (Or.inr ⟨config, rfl, Or.inl h⟩)
          · exact Or.inr (Or.inr ⟨config, rfl, Or.inr (Or.inl ⟨h, hsm⟩)⟩)
          · exact Or.inr (Or.inl ⟨_, _, _, h⟩)
          · obtain ⟨hec, hkind⟩ := reportFailure_calls x pullCtx client err c h
            obtain ⟨text, htext⟩ := isErrComment_text err hec
            rcases hkind with h1 | h1 | ⟨err2, h1⟩
            · refine Or.inr (Or.inr ⟨config, rfl, Or.inr (Or.inr ⟨?_, hsm, text, ?_⟩)⟩)
              · subst h1
                simp [Call.isCommentCall, Call.isComments]
              · rw [hm, htext]
            · refine Or.inr (Or.inr ⟨config, rfl, Or.inr (Or.inr ⟨?_, hsm, text, ?_⟩)⟩)
              · subst h1
                simp [Call.isCommentCall, Call.isCreateComment]
              · rw [hm, htext]
            · exact Or.inr (Or.inl ⟨_, _, _, h1⟩)

/-- After the evaluator said yes the `switch` invokes `MergePR` once, with the
merger it was given and the merge settings of the configuration. -/
theorem switchMerge_merges (x : Externals) (pullCtx : PullContext) (client : Client)
    (merger : Merger) (trace : List Call) (config : Config)
    (hsm : x.ShouldMergePR pullCtx config.Merge = .ok true) :
    (switchMerge x pullCtx client merger trace (.valid config)).calls.filter Call.isMergePR
      = trace.filter Call.isMergePR ++ [.MergePR pullCtx merger config.Merge] := by
  cases hm : x.MergePR pullCtx merger config.Merge with
  | none => simp [switchMerge, hsm, hm, Call.isMergePR]
  | some err =>
    have hrep : (reportFailure x pullCtx client err).filter Call.isMergePR = [] := by
      rw [List.filter_eq_nil_iff]
      intro c hc
      rcases (reportFailure_calls x pullCtx client err c hc).2 with h | h | ⟨_, h⟩ <;>
        subst h <;> simp [Call.isMergePR]
    simp [switchMerge, hsm, hm, Call.isMergePR, hrep]

theorem buildMerger_no_mergePR (b : Base) (client : Client) (pr : PullRequest)
    (merger : Merger) (trace : List Call) (hb : buildMerger b client pr = .ok (merger, trace)) :
    trace.filter Call.isMergePR = [] := by
  rw [List.filter_eq_nil_iff]
  intro c hc
  simp [(buildMerger_trace_quiet b client pr merger trace hb c hc).1]

/-- The failure of `MergePR` is the error of the log line that follows it. -/
theorem switchMerge_logs_failure (x : Externals) (pullCtx : PullContext) (client : Client)
    (merger : Merger) (trace : List Call) (config : Config) (err : GoError)
    (hsm : x.ShouldMergePR pullCtx config.Merge = .ok true)
    (hm : x.MergePR pullCtx merger config.Merge = some err) :
    Call.Log .error (some err) "failed to merge pull request"
      ∈ (switchMerge x pullCtx client merger trace (.valid config)).calls := by
  rw [switchMerge_failed_calls x pullCtx client merger trace config err hsm hm]
  simp

/-! ## The claims -/

/-- C2: in `addUniqueComment`, when the comment history lists successfully and
`strings.EqualFold` matches none of its bodies against the error text, the run
lists the comments and makes exactly one `CreateComment` call, addressed to the
owner, repository and number of the pull request, with the error text itself as
body; the call is made whatever else the bodies contain, so a body of which the
error text is only a part does not suppress it.  The same holds for
`ProcessPullRequest` in every run in which `MergePR` was invoked and failed with
an `*ErrComment` carrying that text. -/
theorem addUniqueComment_posts_once_when_unmatched (x : Externals) (pullCtx : PullContext)
    (client : Client) (errorComment : String) (history : List String)
    (hlist : pullCtx.Comments = .ok history)
    (hnew : ∀ body ∈ history, x.EqualFold body errorComment = false) :
    (addUniqueComment x pullCtx client errorComment).calls =
        [.Comments pullCtx,
         .CreateComment client pullCtx.Owner pullCtx.Repo pullCtx.Number errorComment]
    ∧ ∀ (b : Base) (pr : PullRequest) (merger : Merger) (settings : MergeConfig) (err : GoError),
        Call.MergePR pullCtx merger settings ∈ (ProcessPullRequest b x pullCtx client pr).calls →
        x.MergePR pullCtx merger settings = some err →
        err.isErrComment = true →
        err.Error = errorComment →
        (ProcessPullRequest b x pullCtx client pr).calls.filter Call.isCreateComment =
          [.CreateComment client pullCtx.Owner pullCtx.Repo pullCtx.Number errorComment] := by
  have hcalls := addUniqueComment_unmatched x pullCtx client errorComment history hlist hnew
  refine ⟨hcalls, ?_⟩
  intro b pr merger settings err hmem hm hec htext
  rw [ProcessPullRequest_created b x pullCtx client pr merger settings err hmem hm hec, htext,
    hcalls]
  simp [Call.isCreateComment]

/-- C2 at a pull request whose only comments are a longer text that contains the
error text and an unrelated one: the comment is posted, once. -/
theorem addUniqueComment_posts_once_when_unmatched_witness :
    (samplePull ["Merge blocked: again", "LGTM"]).Comments
        = .ok ["Merge blocked: again", "LGTM"]
    ∧ (∀ body ∈ ["Merge blocked: again", "LGTM"],
        sampleExternals.EqualFold body "Merge blocked" = false)
    ∧ (addUniqueComment sampleExternals (samplePull ["Merge blocked: again", "LGTM"]) ⟨1⟩
        "Merge blocked").calls =
        [.Comments (samplePull ["Merge blocked: again", "LGTM"]),
         .CreateComment ⟨1⟩ "palantir" "bulldozer" 7 "Merge blocked"]
    ∧ (ProcessPullRequest (sampleBase (.valid sampleConfig) "") sampleExternals
        (samplePull ["Merge blocked: again", "LGTM"]) ⟨1⟩ ⟨3⟩).calls.filter
          Call.isCreateComment =
        [.CreateComment ⟨1⟩ "palantir" "bulldozer" 7 "Merge blocked"] :=
  ⟨rfl, by decide,
    (addUniqueComment_posts_once_when_unmatched sampleExternals
      (samplePull ["Merge blocked: again", "LGTM"]) ⟨1⟩ "Merge blocked"
      ["Merge blocked: again", "LGTM"] rfl (by decide)).1,
    (addUniqueComment_posts_once_when_unmatched sampleExternals
      (samplePull ["Merge blocked: again", "LGTM"]) ⟨1⟩ "Merge blocked"
      ["Merge blocked: again", "LGTM"] rfl (by decide)).2
      (sampleBase (.valid sampleConfig) "") ⟨3⟩ (NewGitHubMerger ⟨1⟩) sampleConfig.Merge
      (.errComment "Merge blocked") (by decide) rfl rfl rfl⟩

/-- C3: in `addUniqueComment`, when the comment history lists successfully and
`strings.EqualFold` matches at least one of its bodies against the error text
(wherever it stands and however often), the run only lists the comments, makes
no `CreateComment` call and returns nil; and a run of `ProcessPullRequest` in
which `MergePR` was invoked and failed with an `*ErrComment` carrying that text
makes no `CreateComment` call either. -/
theorem addUniqueComment_silent_when_matched (x : Externals) (pullCtx : PullContext)
    (client : Client) (errorComment : String) (history : List String) (body : String)
    (hlist : pullCtx.Comments = .ok history)
    (hmem : body ∈ history)
    (hmatch : x.EqualFold body errorComment = true) :
    addUniqueComment x pullCtx client errorComment = ⟨[.Comments pullCtx], none⟩
    ∧ (addUniqueComment x pullCtx client errorComment).calls.filter Call.isCreateComment = []
    ∧ ∀ (b : Base) (pr : PullRequest) (merger : Merger) (settings : MergeConfig) (err : GoError),
        Call.MergePR pullCtx merger settings ∈ (ProcessPullRequest b x pullCtx client pr).calls →
        x.MergePR pullCtx merger settings = some err →
        err.isErrComment = true →
        err.Error = errorComment →
        (ProcessPullRequest b x pullCtx client pr).calls.filter Call.isCreateComment = [] := by
  have hrun := addUniqueComment_matched x pullCtx client errorComment history body hlist hmem
    hmatch
  refine ⟨hrun, ?_, ?_⟩
  · rw [hrun]
    simp [Call.isCreateComment, Call.isComments]
  · intro b pr merger settings err hcall hm hec htext
    rw [ProcessPullRequest_created b x pullCtx client pr merger settings err hcall hm hec, htext,
      hrun]
    simp [Call.isCreateComment]

/-- C3 at a history whose second and fourth comments match the error text in
another case. -/
theorem addUniqueComment_silent_when_matched_witness :
    (samplePull ["LGTM", "MERGE BLOCKED", "ship it", "merge blocked"]).Comments
        = .ok ["LGTM", "MERGE BLOCKED", "ship it", "merge blocked"]
    ∧ "MERGE BLOCKED" ∈ ["LGTM", "MERGE BLOCKED", "ship it", "merge blocked"]
    ∧ sampleExternals.EqualFold "MERGE BLOCKED" "Merge blocked" = true
    ∧ addUniqueComment sampleExternals
        (samplePull ["LGTM", "MERGE BLOCKED", "ship it", "merge blocked"]) ⟨1⟩ "Merge blocked"
        = ⟨[.Comments (samplePull ["LGTM", "MERGE BLOCKED", "ship it", "merge blocked"])], none⟩
    ∧ (ProcessPullRequest (sampleBase (.valid sampleConfig) "") sampleExternals
        (samplePull ["LGTM", "MERGE BLOCKED", "ship it", "merge blocked"]) ⟨1⟩ ⟨3⟩).calls.filter
          Call.isCreateComment = [] :=
  ⟨rfl, by decide, by decide,
    (addUniqueComment_silent_when_matched sampleExternals
      (samplePull ["LGTM", "MERGE BLOCKED", "ship it", "merge blocked"]) ⟨1⟩ "Merge blocked"
      ["LGTM", "MERGE BLOCKED", "ship it", "merge blocked"] "MERGE BLOCKED" rfl (by decide)
      (by decide)).1,
    (addUniqueComment_silent_when_matched sampleExternals
      (samplePull ["LGTM", "MERGE BLOCKED", "ship it", "merge blocked"]) ⟨1⟩ "Merge blocked"
      ["LGTM", "MERGE BLOCKED", "ship it", "merge blocked"] "MERGE BLOCKED" rfl (by decide)
      (by decide)).2.2
      (sampleBase (.valid sampleConfig) "") ⟨3⟩ (NewGitHubMerger ⟨1⟩) sampleConfig.Merge
      (.errComment "Merge blocked") (by decide) rfl rfl rfl⟩

/-- C10: against an append-only comment store, with every `CreateComment`
succeeding and `strings.EqualFold` transitive (it compares under Unicode simple
case folding), two deliveries in sequence of error texts `t1`, `t2` that
`EqualFold` holds equal create at most one comment in total, the second one
creates none, returns nil and leaves the history as the first one left it; and
in any longer sequence of deliveries of texts equal to the first, every delivery
after the first creates none. -/
theorem deliver_twice_creates_at_most_one (x : Externals) (pullCtx : PullContext)
    (client : Client) (history : List String) (t1 t2 : String)
    (htrans : ∀ u v w, x.EqualFold u v = true → x.EqualFold v w = true →
      x.EqualFold u w = true)
    (hpost : ∀ c owner repo number body, x.CreateComment c owner repo number body = none)
    (hsame : x.EqualFold t1 t2 = true) :
    createdBodies
        (deliver x pullCtx client (deliver x pullCtx client history t1).1 t2).2.calls = []
    ∧ (deliver x pullCtx client (deliver x pullCtx client history t1).1 t2).2.err = none
    ∧ (deliver x pullCtx client (deliver x pullCtx client history t1).1 t2).1
        = (deliver x pullCtx client history t1).1
    ∧ (createdBodies (deliver x pullCtx client history t1).2.calls ++
        createdBodies
          (deliver x pullCtx client (deliver x pullCtx client history t1).1 t2).2.calls).length
        ≤ 1
    ∧ ∀ rest : List String, (∀ t ∈ rest, x.EqualFold t1 t = true) →
        (createdBodies (deliver x pullCtx client history t1).2.calls).length ≤ 1
        ∧ ∀ run ∈ (deliverAll x pullCtx client (deliver x pullCtx client history t1).1 rest).2,
            createdBodies run.calls = [] ∧ run.err = none := by
  rcases matched_or_unmatched x history t1 with ⟨body, hmem, hmatch⟩ | hnew
  · have hfirst := deliver_matched x pullCtx client history t1 body hmem hmatch
    have hsecond := deliver_matched x pullCtx client history t2 body hmem
      (htrans body t1 t2 hmatch hsame)
    rw [hfirst]
    simp only [hsecond]
    refine ⟨by simp [createdBodies], by simp, by simp, by simp [createdBodies], ?_⟩
    intro rest hrest
    refine ⟨by simp [createdBodies], ?_⟩
    exact (deliverAll_matched x pullCtx client rest history body hmem
      (fun t ht => htrans body t1 t hmatch (hrest t ht))).2
  · have hfirst := deliver_unmatched x pullCtx client history t1 hpost hnew
    have hsecond := deliver_matched x pullCtx client (history ++ [t1]) t2 t1 (by simp) hsame
    rw [hfirst]
    simp only [hsecond]
    refine ⟨by simp [createdBodies], by simp, by simp, by simp [createdBodies], ?_⟩
    intro rest hrest
    refine ⟨by simp [createdBodies], ?_⟩
    exact (deliverAll_matched x pullCtx client rest (history ++ [t1]) t1 (by simp) hrest).2

theorem asciiEqualFold_trans (u v w : String) (huv : asciiEqualFold u v = true)
    (hvw : asciiEqualFold v w = true) : asciiEqualFold u w = true := by
  simp only [asciiEqualFold, beq_iff_eq] at *
  exact huv.trans hvw

/-- C10 at an empty history: the first delivery posts, the second one, of the
same text in another case, does not. -/
theorem deliver_twice_creates_at_most_one_witness :
    sampleExternals.EqualFold "Merge blocked" "MERGE BLOCKED" = true
    ∧ createdBodies (deliver sampleExternals (samplePull []) ⟨1⟩ [] "Merge blocked").2.calls
        = ["Merge blocked"]
    ∧ createdBodies
        (deliver sampleExternals (samplePull []) ⟨1⟩
          (deliver sampleExternals (samplePull []) ⟨1⟩ [] "Merge blocked").1
          "MERGE BLOCKED").2.calls = [] :=
  ⟨by decide, by decide,
    (deliver_twice_creates_at_most_one sampleExternals (samplePull []) ⟨1⟩ [] "Merge blocked"
      "MERGE BLOCKED" asciiEqualFold_trans (fun _ _ _ _ _ => rfl) (by decide)).1⟩

/-- C1, as the code has it: when the configuration resolves to Absent or to
Invalid, neither `ProcessPullRequest` nor `UpdatePullRequest` invokes `MergePR`,
`UpdatePR` or a condition evaluator, whatever the other inputs are;
`UpdatePullRequest` returns nil; `ProcessPullRequest` returns nil when
`PushRestrictionUserToken` is empty or `NewTokenClient` succeeds, and returns the
failure of `NewTokenClient`, wrapped as "failed to create token client", when
the token is set and the creation fails. -/
theorem no_action_without_valid_config (b : Base) (x : Externals) (pullCtx : PullContext)
    (client : Client) (pr : PullRequest) (baseRef : String) (fetched : FetchedConfig)
    (hcf : b.ConfigForPR client pr = .ok fetched)
    (hstate : fetched = .absent ∨ fetched = .invalid) :
    (∀ c ∈ (ProcessPullRequest b x pullCtx client pr).calls,
        c.isMergePR = false ∧ c.isUpdatePR = false ∧ c.isEvaluator = false)
    ∧ (∀ c ∈ (UpdatePullRequest b x pullCtx client pr baseRef).calls,
        c.isMergePR = false ∧ c.isUpdatePR = false ∧ c.isEvaluator = false)
    ∧ (UpdatePullRequest b x pullCtx client pr baseRef).err = none
    ∧ ((b.PushRestrictionUserToken = ""
          ∨ ∃ tokenClient, b.NewTokenClient b.PushRestrictionUserToken = .ok tokenClient) →
        (ProcessPullRequest b x pullCtx client pr).err = none)
    ∧ (∀ err, b.PushRestrictionUserToken ≠ "" →
        b.NewTokenClient b.PushRestrictionUserToken = .fail err →
        (ProcessPullRequest b x pullCtx client pr).err
          = some (.wrap err "failed to create token client")) := by
  obtain ⟨ulevel, umsg, hupd⟩ :=
    UpdatePullRequest_no_config b x pullCtx client pr baseRef fetched hcf hstate
  refine ⟨?_, ?_, ?_, ?_, ?_⟩
  · cases hb : buildMerger b client pr with
    | fail err =>
      obtain ⟨htok, hntc⟩ := buildMerger_fail b client pr err hb
      rw [ProcessPullRequest_token_failure b x pullCtx client pr fetched err hcf htok hntc]
      simp [Call.isMergePR, Call.isUpdatePR, Call.isEvaluator]
    | ok built =>
      obtain ⟨merger, trace⟩ := built
      obtain ⟨level, msg, hrun⟩ :=
        ProcessPullRequest_no_config b x pullCtx client pr fetched merger trace hcf hstate hb
      rw [hrun]
      rcases buildMerger_ok b client pr merger trace hb with ⟨_, _, ht⟩ | ⟨_, _, _, _, ht⟩ <;>
        subst ht <;> simp [Call.isMergePR, Call.isUpdatePR, Call.isEvaluator]
  · rw [hupd]
    simp [Call.isMergePR, Call.isUpdatePR, Call.isEvaluator]
  · rw [hupd]
  · intro hbuilt
    have hb : ∃ merger trace, buildMerger b client pr = .ok (merger, trace) := by
      by_cases htok : b.PushRestrictionUserToken = ""
      · exact ⟨_, _, buildMerger_empty b client pr htok⟩
      · rcases hbuilt with h | ⟨tokenClient, h⟩
        · exact absurd h htok
        · exact ⟨_, _, buildMerger_token b client pr tokenClient htok h⟩
    obtain ⟨merger, trace, hb⟩ := hb
    obtain ⟨level, msg, hrun⟩ :=
      ProcessPullRequest_no_config b x pullCtx client pr fetched merger trace hcf hstate hb
    rw [hrun]
  · intro err htok hntc
    rw [ProcessPullRequest_token_failure b x pullCtx client pr fetched err hcf htok hntc]

/-- C1 at an absent configuration with no token configured. -/
theorem no_action_without_valid_config_witness :
    (sampleBase .absent "").ConfigForPR ⟨1⟩ ⟨3⟩ = .ok .absent
    ∧ (UpdatePullRequest (sampleBase .absent "") sampleExternals (samplePull []) ⟨1⟩ ⟨3⟩
        "main").err = none
    ∧ (ProcessPullRequest (sampleBase .absent "") sampleExternals (samplePull []) ⟨1⟩ ⟨3⟩).err
        = none :=
  ⟨rfl,
    (no_action_without_valid_config (sampleBase .absent "") sampleExternals (samplePull [])
      ⟨1⟩ ⟨3⟩ "main" .absent rfl (Or.inl rfl)).2.2.1,
    (no_action_without_valid_config (sampleBase .absent "") sampleExternals (samplePull [])
      ⟨1⟩ ⟨3⟩ "main" .absent rfl (Or.inl rfl)).2.2.2.1 (Or.inl rfl)⟩

/-- C1 as stated fails: with an absent configuration, a token configured and a
`NewTokenClient` that fails, `ProcessPullRequest` returns an error, not nil. -/
theorem absent_config_with_failing_token_client_returns_error :
    (brokenTokenBase .absent "secret").ConfigForPR ⟨1⟩ ⟨3⟩ = .ok .absent
    ∧ (ProcessPullRequest (brokenTokenBase .absent "secret") sampleExternals (samplePull [])
        ⟨1⟩ ⟨3⟩).err
        = some (.wrap (.other "bad credentials") "failed to create token client")
    ∧ (ProcessPullRequest (brokenTokenBase .absent "secret") sampleExternals (samplePull [])
        ⟨1⟩ ⟨3⟩).err ≠ none := by
  decide

/-- C4: when the configuration resolves to Valid and `ShouldMergePR`, invoked on
its merge settings, returns `(false, nil)`, `ProcessPullRequest` does not invoke
`MergePR`, neither lists nor creates comments, and returns nil. -/
theorem no_merge_when_not_eligible (b : Base) (x : Externals) (pullCtx : PullContext)
    (client : Client) (pr : PullRequest) (config : Config)
    (hcf : b.ConfigForPR client pr = .ok (.valid config))
    (hcalled : Call.ShouldMergePR pullCtx config.Merge
      ∈ (ProcessPullRequest b x pullCtx client pr).calls)
    (hsm : x.ShouldMergePR pullCtx config.Merge = .ok false) :
    (∀ c ∈ (ProcessPullRequest b x pullCtx client pr).calls,
        c.isMergePR = false ∧ c.isCommentCall = false)
    ∧ (ProcessPullRequest b x pullCtx client pr).err = none := by
  obtain ⟨merger, trace, hb, hrun⟩ :=
    shouldMergePR_mem_calls b x pullCtx client pr config hcf hcalled
  have hquiet := buildMerger_trace_quiet b client pr merger trace hb
  rw [hrun]
  simp only [switchMerge, hsm]
  refine ⟨?_, trivial⟩
  intro c hc
  rcases List.mem_append.mp hc with h | h
  · exact ⟨(hquiet c h).1, (hquiet c h).2.2.2⟩
  · simp only [List.mem_cons, List.mem_singleton, List.not_mem_nil, or_false] at h
    rcases h with h | h <;> subst h <;>
      simp [Call.isMergePR, Call.isCommentCall, Call.isComments, Call.isCreateComment]

/-- C4 at a valid configuration, a token client that is created and a merge
condition evaluator that says no. -/
theorem no_merge_when_not_eligible_witness :
    (sampleBase (.valid sampleConfig) "secret").ConfigForPR ⟨1⟩ ⟨3⟩ = .ok (.valid sampleConfig)
    ∧ (ProcessPullRequest (sampleBase (.valid sampleConfig) "secret")
        { sampleExternals with ShouldMergePR := fun _ _ => .ok false } (samplePull []) ⟨1⟩
        ⟨3⟩).err = none
    ∧ ∀ c ∈ (ProcessPullRequest (sampleBase (.valid sampleConfig) "secret")
        { sampleExternals with ShouldMergePR := fun _ _ => .ok false } (samplePull []) ⟨1⟩
        ⟨3⟩).calls, c.isMergePR = false ∧ c.isCommentCall = false :=
  ⟨rfl,
    (no_merge_when_not_eligible (sampleBase (.valid sampleConfig) "secret")
      { sampleExternals with ShouldMergePR := fun _ _ => .ok false } (samplePull []) ⟨1⟩ ⟨3⟩
      sampleConfig rfl (by decide) rfl).2,
    (no_merge_when_not_eligible (sampleBase (.valid sampleConfig) "secret")
      { sampleExternals with ShouldMergePR := fun _ _ => .ok false } (samplePull []) ⟨1⟩ ⟨3⟩
      sampleConfig rfl (by decide) rfl).1⟩

/-- C8: when `ConfigForPR` succeeds (with a configuration in any of the three
states), `PushRestrictionUserToken` is set and `NewTokenClient` fails,
`ProcessPullRequest` makes these two calls and no other (no condition evaluator,
no `MergePR`, no comment listing or creation) and returns the failure wrapped
with the message "failed to create token client". -/
theorem token_client_failure_aborts (b : Base) (x : Externals) (pullCtx : PullContext)
    (client : Client) (pr : PullRequest) (fetched : FetchedConfig) (err : GoError)
    (hcf : b.ConfigForPR client pr = .ok fetched)
    (htok : b.PushRestrictionUserToken ≠ "")
    (hntc : b.NewTokenClient b.PushRestrictionUserToken = .fail err) :
    (ProcessPullRequest b x pullCtx client pr).calls =
        [.ConfigForPR client pr, .NewTokenClient b.PushRestrictionUserToken]
    ∧ (ProcessPullRequest b x pullCtx client pr).err
        = some (.wrap err "failed to create token client")
    ∧ (∀ e, (ProcessPullRequest b x pullCtx client pr).err = some e →
        e.Error = "failed to create token client: " ++ err.Error)
    ∧ (∀ c ∈ (ProcessPullRequest b x pullCtx client pr).calls,
        c.isEvaluator = false ∧ c.isMergePR = false ∧ c.isCommentCall = false) := by
  rw [ProcessPullRequest_token_failure b x pullCtx client pr fetched err hcf htok hntc]
  refine ⟨rfl, rfl, ?_, ?_⟩
  · intro e he
    simp only [Option.some.injEq] at he
    subst he
    simp [GoError.Error, String.append_assoc]
  · simp [Call.isEvaluator, Call.isMergePR, Call.isCommentCall, Call.isComments,
      Call.isCreateComment]

/-- C8 at a valid configuration with eligible merge: the failing token client
still aborts the event. -/
theorem token_client_failure_aborts_witness :
    (brokenTokenBase (.valid sampleConfig) "secret").ConfigForPR ⟨1⟩ ⟨3⟩
        = .ok (.valid sampleConfig)
    ∧ (brokenTokenBase (.valid sampleConfig) "secret").PushRestrictionUserToken ≠ ""
    ∧ (ProcessPullRequest (brokenTokenBase (.valid sampleConfig) "secret") sampleExternals
        (samplePull []) ⟨1⟩ ⟨3⟩).calls = [.ConfigForPR ⟨1⟩ ⟨3⟩, .NewTokenClient "secret"] :=
  ⟨rfl, by decide,
    (token_client_failure_aborts (brokenTokenBase (.valid sampleConfig) "secret")
      sampleExternals (samplePull []) ⟨1⟩ ⟨3⟩ (.valid sampleConfig) (.other "bad credentials")
      rfl (by decide) rfl).1⟩

/-- C5: `ProcessPullRequest` returns an error exactly when `ConfigForPR` fails,
or the token is set and `NewTokenClient` fails, or the configuration is valid
and `ShouldMergePR` fails; so it returns nil whenever configuration resolution,
executor construction and merge condition evaluation succeed, for every result
of `MergePR`, of the comment listing and of `CreateComment`. -/
theorem ProcessPullRequest_nil_unless_fatal (b : Base) (x : Externals) (pullCtx : PullContext)
    (client : Client) (pr : PullRequest) :
    ((ProcessPullRequest b x pullCtx client pr).err ≠ none ↔
      (∃ err, b.ConfigForPR client pr = .fail err)
      ∨ (b.PushRestrictionUserToken ≠ ""
          ∧ ∃ err, b.NewTokenClient b.PushRestrictionUserToken = .fail err)
      ∨ (∃ config err, b.ConfigForPR client pr = .ok (.valid config)
          ∧ x.ShouldMergePR pullCtx config.Merge = .fail err))
    ∧ (∀ fetched, b.ConfigForPR client pr = .ok fetched →
        (b.PushRestrictionUserToken = ""
          ∨ ∃ tokenClient, b.NewTokenClient b.PushRestrictionUserToken = .ok tokenClient) →
        (∀ config, fetched = .valid config →
          ∃ shouldMerge, x.ShouldMergePR pullCtx config.Merge = .ok shouldMerge) →
        (ProcessPullRequest b x pullCtx client pr).err = none) := by
  have hiff : (ProcessPullRequest b x pullCtx client pr).err ≠ none ↔
      (∃ err, b.ConfigForPR client pr = .fail err)
      ∨ (b.PushRestrictionUserToken ≠ ""
          ∧ ∃ err, b.NewTokenClient b.PushRestrictionUserToken = .fail err)
      ∨ (∃ config err, b.ConfigForPR client pr = .ok (.valid config)
          ∧ x.ShouldMergePR pullCtx config.Merge = .fail err) := by
    rw [Option.ne_none_iff_exists']
    constructor
    · rintro ⟨e, he⟩
      rcases (ProcessPullRequest_err b x pullCtx client pr e).mp he with
        ⟨err, h, _⟩ | ⟨_, err, _, htok, hntc, _⟩ | ⟨config, err, _, _, hcf, _, hsm, _⟩
      · exact Or.inl ⟨err, h⟩
      · exact Or.inr (Or.inl ⟨htok, err, hntc⟩)
      · exact Or.inr (Or.inr ⟨config, err, hcf, hsm⟩)
    · intro h
      cases hcf : b.ConfigForPR client pr with
      | fail err =>
        exact ⟨_, (ProcessPullRequest_err b x pullCtx client pr _).mpr (Or.inl ⟨err, hcf, rfl⟩)⟩
      | ok fetched =>
        cases hb : buildMerger b client pr with
        | fail err =>
          obtain ⟨htok, hntc⟩ := buildMerger_fail b client pr err hb
          exact ⟨_, (ProcessPullRequest_err b x pullCtx client pr _).mpr
            (Or.inr (Or.inl ⟨fetched, err, hcf, htok, hntc, rfl⟩))⟩
        | ok built =>
          obtain ⟨merger, trace⟩ := built
          rcases h with ⟨err, h⟩ | ⟨htok, err, hntc⟩ | ⟨config, err, h, hsm⟩
          · rw [hcf] at h
            cases h
          · rcases buildMerger_ok b client pr merger trace hb with ⟨h, _⟩ | ⟨_, tc, h, _⟩
            · exact absurd h htok
            · rw [hntc] at h
              cases h
          · rw [hcf] at h
            cases h
            exact ⟨_, (ProcessPullRequest_err b x pullCtx client pr _).mpr
              (Or.inr (Or.inr ⟨config, err, merger, trace, hcf, hb, hsm, rfl⟩))⟩
  refine ⟨hiff, ?_⟩
  intro fetched hcf hbuilt hsm
  by_contra hne
  rcases hiff.mp hne with ⟨err, h⟩ | ⟨htok, err, hntc⟩ | ⟨config, err, h, hfail⟩
  · rw [hcf] at h
    cases h
  · rcases hbuilt with h | ⟨tc, h⟩
    · exact htok h
    · rw [hntc] at h
      cases h
  · rw [hcf] at h
    cases h
    obtain ⟨v, hv⟩ := hsm config rfl
    rw [hfail] at hv
    cases hv

/-- C5 at a merge that fails with a commentable error while the comment listing
fails as well: the event still returns nil. -/
theorem ProcessPullRequest_nil_unless_fatal_witness :
    (ProcessPullRequest (sampleBase (.valid sampleConfig) "secret") sampleExternals
      ⟨"palantir", "bulldozer", 7, .fail (.other "rate limited")⟩ ⟨1⟩ ⟨3⟩).err = none :=
  (ProcessPullRequest_nil_unless_fatal (sampleBase (.valid sampleConfig) "secret")
    sampleExternals ⟨"palantir", "bulldozer", 7, .fail (.other "rate limited")⟩ ⟨1⟩ ⟨3⟩).2
    (.valid sampleConfig) rfl (Or.inr ⟨⟨2⟩, rfl⟩) (fun _ _ => ⟨true, rfl⟩)

/-- C6: with a valid configuration, a failure of `ShouldMergePR` makes
`ProcessPullRequest` return that failure wrapped with the message "unable to
determine merge status" without invoking `MergePR`, and a failure of
`ShouldUpdatePR` makes `UpdatePullRequest` return it wrapped with "unable to
determine update status" without invoking `UpdatePR`; conversely an error
returned by either method whose text starts with one of the two messages is
such a wrapped evaluator failure of its own path, and a run in which `MergePR`
or `UpdatePR` was invoked returns nil. -/
theorem evaluator_failure_is_fatal_and_identifiable (b : Base) (x : Externals)
    (pullCtx : PullContext) (client : Client) (pr : PullRequest) (baseRef : String) :
    (∀ config err, b.ConfigForPR client pr = .ok (.valid config) →
        Call.ShouldMergePR pullCtx config.Merge
          ∈ (ProcessPullRequest b x pullCtx client pr).calls →
        x.ShouldMergePR pullCtx config.Merge = .fail err →
        (ProcessPullRequest b x pullCtx client pr).err
            = some (.wrap err "unable to determine merge status")
        ∧ (GoError.wrap err "unable to determine merge status").Error
            = "unable to determine merge status: " ++ err.Error
        ∧ startsWith "unable to determine merge status"
            (GoError.wrap err "unable to determine merge status").Error = true
        ∧ ∀ c ∈ (ProcessPullRequest b x pullCtx client pr).calls, c.isMergePR = false)
    ∧ (∀ config err, b.ConfigForPR client pr = .ok (.valid config) →
        x.ShouldUpdatePR pullCtx config.Update = .fail err →
        (UpdatePullRequest b x pullCtx client pr baseRef).err
            = some (.wrap err "unable to determine update status")
        ∧ (GoError.wrap err "unable to determine update status").Error
            = "unable to determine update status: " ++ err.Error
        ∧ startsWith "unable to determine update status"
            (GoError.wrap err "unable to determine update status").Error = true
        ∧ ∀ c ∈ (UpdatePullRequest b x pullCtx client pr baseRef).calls, c.isUpdatePR = false)
    ∧ (∀ e, (ProcessPullRequest b x pullCtx client pr).err = some e →
        (startsWith "unable to determine merge status" e.Error = true
          ∨ startsWith "unable to determine update status" e.Error = true) →
        ∃ config err, b.ConfigForPR client pr = .ok (.valid config)
          ∧ x.ShouldMergePR pullCtx config.Merge = .fail err
          ∧ e = .wrap err "unable to determine merge status")
    ∧ (∀ e, (UpdatePullRequest b x pullCtx client pr baseRef).err = some e →
        (startsWith "unable to determine merge status" e.Error = true
          ∨ startsWith "unable to determine update status" e.Error = true) →
        ∃ config err, b.ConfigForPR client pr = .ok (.valid config)
          ∧ x.ShouldUpdatePR pullCtx config.Update = .fail err
          ∧ e = .wrap err "unable to determine update status")
    ∧ ((∃ c ∈ (ProcessPullRequest b x pullCtx client pr).calls, c.isMergePR = true) →
        (ProcessPullRequest b x pullCtx client pr).err = none)
    ∧ ((∃ c ∈ (UpdatePullRequest b x pullCtx client pr baseRef).calls, c.isUpdatePR = true) →
        (UpdatePullRequest b x pullCtx client pr baseRef).err = none) := by
  refine ⟨?_, ?_, ?_, ?_, ?_, ?_⟩
  · intro config err hcf hcalled hsm
    obtain ⟨merger, trace, hb, hrun⟩ :=
      shouldMergePR_mem_calls b x pullCtx client pr config hcf hcalled
    have hquiet := buildMerger_trace_quiet b client pr merger trace hb
    rw [hrun]
    simp only [switchMerge, hsm]
    refine ⟨trivial, ?_, startsWith_wrap err _, ?_⟩
    · simp [GoError.Error, String.append_assoc]
    · intro c hc
      rcases List.mem_append.mp hc with h | h
      · exact (hquiet c h).1
      · simp only [List.mem_cons, List.mem_singleton, List.not_mem_nil, or_false] at h
        rcases h with h | h <;> subst h <;> simp [Call.isMergePR]
  · intro config err hcf hsu
    refine ⟨?_, ?_, startsWith_wrap err _, ?_⟩
    · unfold UpdatePullRequest
      rw [hcf]
      simp only [hsu]
    · simp [GoError.Error, String.append_assoc]
    · intro c hc
      unfold UpdatePullRequest at hc
      rw [hcf] at hc
      simp only [hsu, List.mem_append, List.mem_cons, List.mem_singleton, List.not_mem_nil,
        or_false] at hc
      rcases hc with hc | hc | hc <;> subst hc <;> simp [Call.isUpdatePR]
  · intro e he htext
    rcases (ProcessPullRequest_err b x pullCtx client pr e).mp he with
      ⟨err, _, h⟩ | ⟨_, err, _, _, _, h⟩ | ⟨config, err, _, _, hcf, _, hsm, h⟩
    · subst h
      rw [fetch_text_not_merge, fetch_text_not_update] at htext
      simp at htext
    · subst h
      rw [token_text_not_merge, token_text_not_update] at htext
      simp at htext
    · exact ⟨config, err, hcf, hsm, h⟩
  · intro e he htext
    rcases (UpdatePullRequest_err b x pullCtx client pr baseRef e).mp he with
      ⟨err, _, h⟩ | ⟨config, err, hcf, hsu, h⟩
    · subst h
      rw [fetch_text_not_merge, fetch_text_not_update] at htext
      simp at htext
    · exact ⟨config, err, hcf, hsu, h⟩
  · rintro ⟨c, hc, hmerge⟩
    cases c with
    | MergePR pctx merger settings =>
      obtain ⟨config, trace, _, _, _, _, hsm, hrun⟩ :=
        mergePR_mem_calls b x pullCtx client pr pctx merger settings hc
      cases herr : (ProcessPullRequest b x pullCtx client pr).err with
      | none => rfl
      | some e =>
        rw [hrun] at herr
        obtain ⟨config2, err2, hc2, hs2, _⟩ :=
          (switchMerge_err x pullCtx client merger trace (.valid config) e).mp herr
        cases hc2
        rw [hsm] at hs2
        cases hs2
    | _ => simp [Call.isMergePR] at hmerge
  · rintro ⟨c, hc, hup⟩
    exact UpdatePullRequest_updated_nil b x pullCtx client pr baseRef c hc hup

/-- C6 at a valid configuration with failing evaluators. -/
theorem evaluator_failure_is_fatal_and_identifiable_witness :
    (ProcessPullRequest (sampleBase (.valid sampleConfig) "") failingEvaluators (samplePull [])
        ⟨1⟩ ⟨3⟩).err
        = some (.wrap (.other "status unavailable") "unable to determine merge status")
    ∧ (UpdatePullRequest (sampleBase (.valid sampleConfig) "") failingEvaluators (samplePull [])
        ⟨1⟩ ⟨3⟩ "main").err
        = some (.wrap (.other "status unavailable") "unable to determine update status") :=
  ⟨((evaluator_failure_is_fatal_and_identifiable (sampleBase (.valid sampleConfig) "")
      failingEvaluators (samplePull []) ⟨1⟩ ⟨3⟩ "main").1 sampleConfig
      (.other "status unavailable") rfl (by decide) rfl).1,
    ((evaluator_failure_is_fatal_and_identifiable (sampleBase (.valid sampleConfig) "")
      failingEvaluators (samplePull []) ⟨1⟩ ⟨3⟩ "main").2.1 sampleConfig
      (.other "status unavailable") rfl rfl).1⟩

/-- C7: in `ProcessPullRequest`, with an empty `PushRestrictionUserToken` the
method never calls `NewTokenClient`; every `MergePR` call is made on the pull
request of the event with the merge settings of the valid configuration and with
the merger `NewGitHubMerger(client)` when the token is empty, or
`NewPushRestrictionMerger(NewGitHubMerger(client), NewGitHubMerger(tokenClient))`
when the token is set and `NewTokenClient` returned `tokenClient`; and when the
configuration is valid and the evaluator says yes, exactly one such call is made
in either case, and without a token the failure of the primary merger is the
error that is logged. -/
theorem merger_composition (b : Base) (x : Externals) (pullCtx : PullContext)
    (client : Client) (pr : PullRequest) :
    (b.PushRestrictionUserToken = "" →
        ∀ c ∈ (ProcessPullRequest b x pullCtx client pr).calls, c.isNewTokenClient = false)
    ∧ (∀ pctx merger settings,
        Call.MergePR pctx merger settings ∈ (ProcessPullRequest b x pullCtx client pr).calls →
        pctx = pullCtx
        ∧ (∃ config, b.ConfigForPR client pr = .ok (.valid config) ∧ settings = config.Merge)
        ∧ ((b.PushRestrictionUserToken = "" ∧ merger = NewGitHubMerger client)
          ∨ (b.PushRestrictionUserToken ≠ "" ∧ ∃ tokenClient,
              b.NewTokenClient b.PushRestrictionUserToken = .ok tokenClient
              ∧ merger = NewPushRestrictionMerger (NewGitHubMerger client)
                  (NewGitHubMerger tokenClient))))
    ∧ (∀ config, b.ConfigForPR client pr = .ok (.valid config) →
        x.ShouldMergePR pullCtx config.Merge = .ok true →
        (b.PushRestrictionUserToken = "" →
          (ProcessPullRequest b x pullCtx client pr).calls.filter Call.isMergePR
              = [.MergePR pullCtx (NewGitHubMerger client) config.Merge]
          ∧ ∀ err, x.MergePR pullCtx (NewGitHubMerger client) config.Merge = some err →
              Call.Log .error (some err) "failed to merge pull request"
                ∈ (ProcessPullRequest b x pullCtx client pr).calls)
        ∧ (∀ tokenClient, b.PushRestrictionUserToken ≠ "" →
            b.NewTokenClient b.PushRestrictionUserToken = .ok tokenClient →
            (ProcessPullRequest b x pullCtx client pr).calls.filter Call.isMergePR
              = [.MergePR pullCtx
                  (NewPushRestrictionMerger (NewGitHubMerger client)
                    (NewGitHubMerger tokenClient))
                  config.Merge])) := by
  refine ⟨?_, ?_, ?_⟩
  · intro htok c hc
    rw [ProcessPullRequest_eq] at hc
    cases hcf : b.ConfigForPR client pr with
    | fail err =>
      simp only [hcf, List.mem_singleton] at hc
      subst hc
      rfl
    | ok fetched =>
      simp only [hcf, buildMerger_empty b client pr htok] at hc
      rcases switchMerge_calls_mem x pullCtx client _ _ fetched c hc with
        h | ⟨_, _, _, h⟩ | ⟨config, _, h | ⟨h, _⟩ | ⟨h, _⟩⟩
      · simp only [List.mem_singleton] at h
        subst h
        rfl
      · subst h
        rfl
      · subst h
        rfl
      · subst h
        rfl
      · cases c <;> simp [Call.isCommentCall, Call.isComments, Call.isCreateComment] at h <;> rfl
  · intro pctx merger settings hmem
    obtain ⟨config, trace, hcf, hb, hp, hs, _, _⟩ :=
      mergePR_mem_calls b x pullCtx client pr pctx merger settings hmem
    refine ⟨hp, ⟨config, hcf, hs⟩, ?_⟩
    rcases buildMerger_ok b client pr merger trace hb with ⟨h1, h2, _⟩ | ⟨h1, tc, h2, h3, _⟩
    · exact Or.inl ⟨h1, h2⟩
    · exact Or.inr ⟨h1, tc, h2, h3⟩
  · intro config hcf hsm
    refine ⟨?_, ?_⟩
    · intro htok
      have hb := buildMerger_empty b client pr htok
      have hrun : ProcessPullRequest b x pullCtx client pr
          = switchMerge x pullCtx client (NewGitHubMerger client) [.ConfigForPR client pr]
              (.valid config) := by
        rw [ProcessPullRequest_eq, hcf]
        simp only [hb]
      rw [hrun]
      refine ⟨?_, ?_⟩
      · rw [switchMerge_merges x pullCtx client _ _ config hsm,
          buildMerger_no_mergePR b client pr _ _ hb]
        rfl
      · intro err hm
        exact switchMerge_logs_failure x pullCtx client _ _ config err hsm hm
    · intro tokenClient htok hntc
      have hb := buildMerger_token b client pr tokenClient htok hntc
      have hrun : ProcessPullRequest b x pullCtx client pr
          = switchMerge x pullCtx client
              (NewPushRestrictionMerger (NewGitHubMerger client) (NewGitHubMerger tokenClient))
              [.ConfigForPR client pr, .NewTokenClient b.PushRestrictionUserToken]
              (.valid config) := by
        rw [ProcessPullRequest_eq, hcf]
        simp only [hb]
      rw [hrun, switchMerge_merges x pullCtx client _ _ config hsm,
        buildMerger_no_mergePR b client pr _ _ hb]
      rfl

/-- C7 without a token and with the token "secret". -/
theorem merger_composition_witness :
    (ProcessPullRequest (sampleBase (.valid sampleConfig) "") sampleExternals (samplePull [])
        ⟨1⟩ ⟨3⟩).calls.filter Call.isMergePR
        = [.MergePR (samplePull []) (.gitHub ⟨1⟩) ⟨1⟩]
    ∧ (ProcessPullRequest (sampleBase (.valid sampleConfig) "secret") sampleExternals
        (samplePull []) ⟨1⟩ ⟨3⟩).calls.filter Call.isMergePR
        = [.MergePR (samplePull []) (.pushRestriction (.gitHub ⟨1⟩) (.gitHub ⟨2⟩)) ⟨1⟩] :=
  ⟨(((merger_composition (sampleBase (.valid sampleConfig) "") sampleExternals (samplePull [])
      ⟨1⟩ ⟨3⟩).2.2 sampleConfig rfl rfl).1 rfl).1,
    ((merger_composition (sampleBase (.valid sampleConfig) "secret") sampleExternals
      (samplePull []) ⟨1⟩ ⟨3⟩).2.2 sampleConfig rfl rfl).2 ⟨2⟩ (by decide) rfl⟩

/-- C9: in a run of `ProcessPullRequest` a comment listing or a `CreateComment`
call happens only if `MergePR` was invoked (once) and returned an error whose
dynamic type is `*bulldozer.ErrComment`; so none happens when `MergePR`
succeeds or fails with an error of another type, nor when the configuration is
Absent or Invalid; and no run of `UpdatePullRequest` lists or creates a
comment. -/
theorem comments_only_for_commentable_failure (b : Base) (x : Externals)
    (pullCtx : PullContext) (client : Client) (pr : PullRequest) (baseRef : String) :
    (∀ c ∈ (ProcessPullRequest b x pullCtx client pr).calls, c.isCommentCall = true →
        ∃ merger settings text,
          (ProcessPullRequest b x pullCtx client pr).calls.filter Call.isMergePR
            = [.MergePR pullCtx merger settings]
          ∧ x.MergePR pullCtx merger settings = some (.errComment text))
    ∧ (∀ merger settings,
        Call.MergePR pullCtx merger settings ∈ (ProcessPullRequest b x pullCtx client pr).calls →
        (x.MergePR pullCtx merger settings = none
          ∨ ∃ err, x.MergePR pullCtx merger settings = some err ∧ err.isErrComment = false) →
        ∀ c ∈ (ProcessPullRequest b x pullCtx client pr).calls, c.isCommentCall = false)
    ∧ (b.ConfigForPR client pr = .ok .absent ∨ b.ConfigForPR client pr = .ok .invalid →
        ∀ c ∈ (ProcessPullRequest b x pullCtx client pr).calls, c.isCommentCall = false)
    ∧ (∀ c ∈ (UpdatePullRequest b x pullCtx client pr baseRef).calls,
        c.isCommentCall = false) := by
  have hmain : ∀ c ∈ (ProcessPullRequest b x pullCtx client pr).calls,
      c.isCommentCall = true →
      ∃ merger settings text,
        (ProcessPullRequest b x pullCtx client pr).calls.filter Call.isMergePR
          = [.MergePR pullCtx merger settings]
        ∧ x.MergePR pullCtx merger settings = some (.errComment text) := by
    intro c hc hcc
    have heq := ProcessPullRequest_eq b x pullCtx client pr
    cases hcf : b.ConfigForPR client pr with
    | fail err =>
      rw [heq] at hc
      simp only [hcf, List.mem_singleton] at hc
      subst hc
      simp [Call.isCommentCall, Call.isComments, Call.isCreateComment] at hcc
    | ok fetched =>
      cases hb : buildMerger b client pr with
      | fail err =>
        rw [heq] at hc
        simp only [hcf, hb, List.mem_cons, List.mem_singleton, List.not_mem_nil, or_false] at hc
        rcases hc with h | h <;> subst h <;>
          simp [Call.isCommentCall, Call.isComments, Call.isCreateComment] at hcc
      | ok built =>
        obtain ⟨merger, trace⟩ := built
        simp only [hcf, hb] at heq
        rw [heq] at hc
        rcases switchMerge_calls_mem x pullCtx client merger trace fetched c hc with
          h | ⟨_, _, _, h⟩ | ⟨config, hf, h | ⟨h, _⟩ | ⟨_, hsm, text, hm⟩⟩
        · rw [(buildMerger_trace_quiet b client pr merger trace hb c h).2.2.2] at hcc
          cases hcc
        · subst h
          simp [Call.isCommentCall, Call.isComments, Call.isCreateComment] at hcc
        · subst h
          simp [Call.isCommentCall, Call.isComments, Call.isCreateComment] at hcc
        · subst h
          simp [Call.isCommentCall, Call.isComments, Call.isCreateComment] at hcc
        · subst hf
          refine ⟨merger, config.Merge, text, ?_, hm⟩
          rw [heq, switchMerge_merges x pullCtx client merger trace config hsm,
            buildMerger_no_mergePR b client pr merger trace hb]
          rfl
  refine ⟨hmain, ?_, ?_, ?_⟩
  · intro merger settings hmem hres c hc
    cases hcc : c.isCommentCall with
    | false => rfl
    | true =>
      exfalso
      obtain ⟨merger2, settings2, text, hfilter, hm⟩ := hmain c hc hcc
      have hin : Call.MergePR pullCtx merger settings
          ∈ (ProcessPullRequest b x pullCtx client pr).calls.filter Call.isMergePR :=
        List.mem_filter.mpr ⟨hmem, rfl⟩
      rw [hfilter, List.mem_singleton] at hin
      cases hin
      rcases hres with h | ⟨err, h, hec⟩
      · rw [hm] at h
        cases h
      · rw [hm] at h
        cases h
        simp [GoError.isErrComment] at hec
  · intro hstate c hc
    cases hcc : c.isCommentCall with
    | false => rfl
    | true =>
      exfalso
      obtain ⟨merger, settings, text, hfilter, _⟩ := hmain c hc hcc
      have hin : Call.MergePR pullCtx merger settings
          ∈ (ProcessPullRequest b x pullCtx client pr).calls := by
        have : Call.MergePR pullCtx merger settings
            ∈ (ProcessPullRequest b x pullCtx client pr).calls.filter Call.isMergePR := by
          rw [hfilter]
          exact List.mem_singleton.mpr rfl
        exact (List.mem_filter.mp this).1
      obtain ⟨config, _, hcf, _⟩ :=
        mergePR_mem_calls b x pullCtx client pr pullCtx merger settings hin
      rcases hstate with h | h <;> rw [hcf] at h <;> cases h
  · intro c hc
    unfold UpdatePullRequest at hc
    cases hcf : b.ConfigForPR client pr with
    | fail err =>
      simp only [hcf, List.mem_singleton] at hc
      subst hc
      rfl
    | ok fetched =>
      cases fetched with
      | absent =>
        simp only [hcf, List.mem_append, List.mem_singleton] at hc
        rcases hc with h | h <;> subst h <;> rfl
      | invalid =>
        simp only [hcf, List.mem_append, List.mem_singleton] at hc
        rcases hc with h | h <;> subst h <;> rfl
      | valid config =>
        cases hsu : x.ShouldUpdatePR pullCtx config.Update with
        | fail err =>
          simp only [hcf, hsu, List.mem_append, List.mem_cons, List.mem_singleton,
            List.not_mem_nil, or_false] at hc
          rcases hc with h | h | h <;> subst h <;> rfl
        | ok shouldUpdate =>
          cases shouldUpdate
          · simp only [hcf, hsu, Bool.false_eq_true, if_false, List.mem_append, List.mem_cons,
              List.mem_singleton, List.not_mem_nil, or_false] at hc
            rcases hc with h | h | h <;> subst h <;> rfl
          · simp only [hcf, hsu, if_true, List.mem_append, List.mem_cons,
              List.mem_singleton, List.not_mem_nil, or_false] at hc
            rcases hc with (h | h | h) | h <;> subst h <;> rfl

/-- C9 at a commentable merge failure: the comment calls come with the single
`MergePR` call that failed. -/
theorem comments_only_for_commentable_failure_witness :
    Call.Comments (samplePull [])
        ∈ (ProcessPullRequest (sampleBase (.valid sampleConfig) "") sampleExternals
            (samplePull []) ⟨1⟩ ⟨3⟩).calls
    ∧ ∃ merger settings text,
        (ProcessPullRequest (sampleBase (.valid sampleConfig) "") sampleExternals
            (samplePull []) ⟨1⟩ ⟨3⟩).calls.filter Call.isMergePR
          = [.MergePR (samplePull []) merger settings]
        ∧ sampleExternals.MergePR (samplePull []) merger settings = some (.errComment text) :=
  ⟨by decide,
    (comments_only_for_commentable_failure (sampleBase (.valid sampleConfig) "")
      sampleExternals (samplePull []) ⟨1⟩ ⟨3⟩ "main").1 (.Comments (samplePull []))
      (by decide) rfl⟩

end Bulldozer
